import Mathlib

/-!
Verification of the HILS testbed core (`src/shared/protocol.py`,
`src/numeric/app/main.py`, `src/plant/app/main.py`) against its
natural-language specification.

Bytes are modelled as `List Nat` (each entry `< 256`); Python machine
integers are `Nat` with explicit `% 2^w` where width matters; Python
floats (IEEE-754 binary64) and the binary32 values produced by
`struct.pack("f", ...)` are modelled by the sum type `PyFloat` whose
finite values are exact rationals; fallible operations
(`struct.pack`/`struct.unpack` raising `struct.error`/`OverflowError`)
return `Option`.
-/

set_option maxRecDepth 400000

/-! ### Byte-string utilities (big-endian and little-endian words) -/

/-- Big-endian encoding of `n` into `k` bytes (`struct.pack` for `!I`/`!Q`
after the value has been reduced to its word width; callers guard the
range as `struct.pack` raises on out-of-range values). -/
def natToBytesBE : Nat → Nat → List Nat
  | _, 0 => []
  | n, k + 1 => natToBytesBE (n / 256) k ++ [n % 256]

/-- Big-endian value of a byte string (`int.from_bytes(data, "big")`). -/
def bytesToNatBE (l : List Nat) : Nat := l.foldl (fun a b => a * 256 + b) 0

/-- Little-endian encoding of `n` into `k` bytes (used by MD5's length
field and word output). -/
def natToBytesLE : Nat → Nat → List Nat
  | _, 0 => []
  | n, k + 1 => n % 256 :: natToBytesLE (n / 256) k

/-- Little-endian value of a byte string (MD5 message words). -/
def bytesToNatLE : List Nat → Nat
  | [] => 0
  | b :: bs => b + 256 * bytesToNatLE bs

theorem natToBytesBE_length (n k : Nat) : (natToBytesBE n k).length = k := by
  induction k generalizing n with
  | zero => rfl
  | succ k ih => simp [natToBytesBE, ih]

theorem natToBytesLE_length (n k : Nat) : (natToBytesLE n k).length = k := by
  induction k generalizing n with
  | zero => rfl
  | succ k ih => simp [natToBytesLE, ih]

theorem natToBytesBE_lt (n k : Nat) : ∀ b ∈ natToBytesBE n k, b < 256 := by
  induction k generalizing n with
  | zero => simp [natToBytesBE]
  | succ k ih =>
    intro b hb
    simp only [natToBytesBE, List.mem_append, List.mem_singleton] at hb
    rcases hb with h | h
    · exact ih _ _ h
    · subst h; exact Nat.mod_lt _ (by norm_num)

theorem natToBytesLE_lt (n k : Nat) : ∀ b ∈ natToBytesLE n k, b < 256 := by
  induction k generalizing n with
  | zero => simp [natToBytesLE]
  | succ k ih =>
    intro b hb
    simp only [natToBytesLE, List.mem_cons] at hb
    rcases hb with h | h
    · subst h; exact Nat.mod_lt _ (by norm_num)
    · exact ih _ _ h

theorem bytesToNatBE_append (l₁ l₂ : List Nat) :
    bytesToNatBE (l₁ ++ l₂) =
      bytesToNatBE l₁ * 256 ^ l₂.length + bytesToNatBE l₂ := by
  induction l₂ using List.reverseRecOn with
  | nil => simp [bytesToNatBE]
  | append_singleton l b ih =>
    simp only [bytesToNatBE, ← List.append_assoc, List.foldl_append, List.foldl_cons,
      List.foldl_nil, List.length_append, List.length_singleton] at *
    rw [ih]; ring

theorem bytesToNatBE_natToBytesBE (n k : Nat) :
    bytesToNatBE (natToBytesBE n k) = n % 256 ^ k := by
  induction k generalizing n with
  | zero => simp [natToBytesBE, bytesToNatBE, Nat.mod_one]
  | succ k ih =>
    have h : bytesToNatBE (natToBytesBE (n / 256) k ++ [n % 256]) =
        bytesToNatBE (natToBytesBE (n / 256) k) * 256 + n % 256 := by
      have := bytesToNatBE_append (natToBytesBE (n / 256) k) [n % 256]
      simp only [bytesToNatBE, List.foldl_cons, List.foldl_nil, List.length_singleton,
        pow_one, Nat.zero_mul, Nat.zero_add] at this ⊢
      omega
    rw [natToBytesBE, h, ih]
    rw [Nat.pow_succ, Nat.mul_comm (256 ^ k) 256, Nat.mod_mul]
    ring

theorem bytesToNatBE_lt (l : List Nat) (h : ∀ b ∈ l, b < 256) :
    bytesToNatBE l < 256 ^ l.length := by
  induction l using List.reverseRecOn with
  | nil => simp [bytesToNatBE]
  | append_singleton l b ih =>
    have hb : b < 256 := h b (by simp)
    have hl : ∀ x ∈ l, x < 256 := fun x hx => h x (by simp [hx])
    have := ih hl
    rw [bytesToNatBE_append]
    simp only [List.length_append, List.length_singleton, bytesToNatBE, List.foldl_cons,
      List.foldl_nil]
    calc bytesToNatBE l * 256 ^ 1 + (0 * 256 + b)
        < (bytesToNatBE l + 1) * 256 := by
          simp only [pow_one, Nat.zero_mul, Nat.zero_add]
          omega
      _ ≤ 256 ^ l.length * 256 := Nat.mul_le_mul_right _ (this)
      _ = 256 ^ (l.length + 1) := by rw [Nat.pow_succ]

/-! ### MD5 (`hashlib.md5`), needed by `ProtocolHandler.calculate_checksum` -/

/-- `2^32`, the word modulus of MD5. -/
def M32 : Nat := 4294967296

/-- The 64 MD5 round constants `K[i] = floor(|sin(i+1)| * 2^32)` (RFC 1321). -/
def md5K : List Nat := [
  3614090360, 3905402710, 606105819, 3250441966,
  4118548399, 1200080426, 2821735955, 4249261313,
  1770035416, 2336552879, 4294925233, 2304563134,
  1804603682, 4254626195, 2792965006, 1236535329,
  4129170786, 3225465664, 643717713, 3921069994,
  3593408605, 38016083, 3634488961, 3889429448,
  568446438, 3275163606, 4107603335, 1163531501,
  2850285829, 4243563512, 1735328473, 2368359562,
  4294588738, 2272392833, 1839030562, 4259657740,
  2763975236, 1272893353, 4139469664, 3200236656,
  681279174, 3936430074, 3572445317, 76029189,
  3654602809, 3873151461, 530742520, 3299628645,
  4096336452, 1126891415, 2878612391, 4237533241,
  1700485571, 2399980690, 4293915773, 2240044497,
  1873313359, 4264355552, 2734768916, 1309151649,
  4149444226, 3174756917, 718787259, 3951481745
]

/-- The 64 MD5 per-round left-rotation amounts (RFC 1321). -/
def md5S : List Nat := [
  7, 12, 17, 22, 7, 12, 17, 22, 7, 12, 17, 22, 7, 12, 17, 22,
  5, 9, 14, 20, 5, 9, 14, 20, 5, 9, 14, 20, 5, 9, 14, 20,
  4, 11, 16, 23, 4, 11, 16, 23, 4, 11, 16, 23, 4, 11, 16, 23,
  6, 10, 15, 21, 6, 10, 15, 21, 6, 10, 15, 21, 6, 10, 15, 21
]

/-- Bitwise complement on a 32-bit word. -/
def not32 (x : Nat) : Nat := 4294967295 - x

/-- Left-rotation of a 32-bit word (`x` is assumed `< 2^32`). -/
def rotl32 (x n : Nat) : Nat := (x * 2 ^ n + x / 2 ^ (32 - n)) % M32

/-- One MD5 round: `st = (A, B, C, D)`, `M` the sixteen message words of
the current block, `i` the round index. -/
def md5round (M : List Nat) (st : Nat × Nat × Nat × Nat) (i : Nat) :
    Nat × Nat × Nat × Nat :=
  let (A, B, C, D) := st
  let Fg : Nat × Nat :=
    if i < 16 then ((B.land C).lor ((not32 B).land D), i)
    else if i < 32 then ((D.land B).lor ((not32 D).land C), (5 * i + 1) % 16)
    else if i < 48 then ((B.xor C).xor D, (3 * i + 5) % 16)
    else (C.xor (B.lor (not32 D)), (7 * i) % 16)
  let tmp := (A + Fg.1 + md5K.getD i 0 + M.getD Fg.2 0) % M32
  (D, (B + rotl32 tmp (md5S.getD i 0)) % M32, B, C)

/-- Process one 64-byte block, updating the running state. -/
def md5block (st : Nat × Nat × Nat × Nat) (block : List Nat) :
    Nat × Nat × Nat × Nat :=
  let M := (List.range 16).map (fun j => bytesToNatLE ((block.drop (4 * j)).take 4))
  let r := (List.range 64).foldl (md5round M) st
  ((st.1 + r.1) % M32, (st.2.1 + r.2.1) % M32,
   (st.2.2.1 + r.2.2.1) % M32, (st.2.2.2 + r.2.2.2) % M32)

/-- MD5 padding: append `0x80`, zero bytes up to 56 mod 64, then the
original bit length as a 64-bit little-endian integer. -/
def md5pad (msg : List Nat) : List Nat :=
  msg ++ [128] ++ List.replicate ((119 - msg.length % 64) % 64) 0 ++
    natToBytesLE (8 * msg.length % 2 ^ 64) 8

/-- `hashlib.md5(msg).digest()` as a list of 16 bytes. -/
def md5 (msg : List Nat) : List Nat :=
  let padded := md5pad msg
  let blocks := (List.range (padded.length / 64)).map
    (fun i => (padded.drop (64 * i)).take 64)
  let r := blocks.foldl md5block (1732584193, 4023233417, 2562383102, 271733878)
  natToBytesLE r.1 4 ++ natToBytesLE r.2.1 4 ++
    natToBytesLE r.2.2.1 4 ++ natToBytesLE r.2.2.2 4

theorem md5_length (msg : List Nat) : (md5 msg).length = 16 := by
  simp [md5, natToBytesLE_length]

theorem md5_bytes_lt (msg : List Nat) : ∀ b ∈ md5 msg, b < 256 := by
  intro b hb
  simp only [md5, List.mem_append] at hb
  rcases hb with ((h | h) | h) | h <;> exact natToBytesLE_lt _ _ _ h

-- Validation against RFC 1321 test vectors ("", "abc").
example : md5 [] =
    [212, 29, 140, 217, 143, 0, 178, 4, 233, 128, 9, 152, 236, 248, 66, 126] := by
  decide

example : md5 [97, 98, 99] =
    [144, 1, 80, 152, 60, 210, 79, 176, 214, 150, 63, 125, 40, 225, 127, 114] := by
  decide

/-! ### Python floats and IEEE-754 encoding

Python `float` is IEEE-754 binary64; `struct.pack("!f", x)` converts to
binary32 with round-to-nearest, ties-to-even, raising `OverflowError`
when a finite value rounds to infinity.  Finite values are exact
rationals; `inf`/`nan` are the remaining IEEE values (`-0.0` is
identified with `0.0`, which is invisible to Python's `==`).
Definitions below use `mkRat` and explicit fuel so that concrete values
evaluate inside the kernel. -/

inductive PyFloat where
  | fin (q : ℚ)
  | inf
  | neginf
  | nan
deriving DecidableEq

/-- Floor of a rational as an integer (`Int.fdiv` is floor division). -/
def qfloor (q : ℚ) : ℤ := Int.fdiv q.num q.den

/-- `|q|` (kept kernel-reducible for concrete evaluation). -/
def qabs (q : ℚ) : ℚ := if q < 0 then -q else q

/-- `2^e` for an integer exponent `e`. -/
def qpow2 (e : ℤ) : ℚ :=
  if 0 ≤ e then mkRat (2 ^ e.toNat) 1 else mkRat 1 (2 ^ (-e).toNat)

/-- Round to nearest integer, ties to even. -/
def rne (x : ℚ) : ℤ :=
  let f := qfloor x
  let r := x - mkRat f 1
  if r < mkRat 1 2 then f
  else if mkRat 1 2 < r then f + 1
  else if f % 2 = 0 then f else f + 1

/-- `⌊log₂ n⌋` by repeated halving, with structural fuel. -/
def natLog2Aux : Nat → Nat → Nat
  | 0, _ => 0
  | fuel + 1, n => if n ≥ 2 then natLog2Aux fuel (n / 2) + 1 else 0

/-- `⌊log₂ n⌋` for `n ≥ 1`. -/
def natLog2 (n : Nat) : Nat := natLog2Aux n n

/-- `⌊log₂ q⌋` for `q > 0`, from the bit lengths of numerator and
denominator with a one-step correction. -/
def qlog2 (q : ℚ) : ℤ :=
  let e0 : ℤ := Int.ofNat (natLog2 q.num.toNat) - Int.ofNat (natLog2 q.den)
  if qpow2 (e0 + 1) ≤ q then e0 + 1 else if q < qpow2 e0 then e0 - 1 else e0

/-- IEEE-754 bit pattern of the nearest float to `q` in a format with
`mbits` mantissa-field bits, `ewidth` exponent-field bits and bias
`ebias` (binary32: 23/8/127, binary64: 52/11/1023).  Fields are masked
to their widths; in range (no overflow, which callers exclude) the
masks are identities. -/
def floatBitsRaw (mbits : Nat) (ebias : ℤ) (q : ℚ) : Nat × ℤ × ℤ :=
  if q = 0 then (0, 0, 0)
  else
    let s : Nat := if q < 0 then 1 else 0
    let a := qabs q
    let e : ℤ := max (qlog2 a) (1 - ebias)
    let m : ℤ := rne (a * qpow2 (Int.ofNat mbits - e))
    let e2 : ℤ := if m = 2 ^ (mbits + 1) then e + 1 else e
    let m2 : ℤ := if m = 2 ^ (mbits + 1) then 2 ^ mbits else m
    if m2 < 2 ^ mbits then
      -- subnormal: exponent field 0, value `m2 * 2^(1 - ebias - mbits)`
      (s, 0, m2)
    else
      (s, e2 + ebias, m2 - 2 ^ mbits)

def floatBits (mbits ewidth : Nat) (ebias : ℤ) (q : ℚ) : Nat :=
  let f := floatBitsRaw mbits ebias q
  f.1 % 2 * 2 ^ (mbits + ewidth) + f.2.1.toNat % 2 ^ ewidth * 2 ^ mbits +
    f.2.2.toNat % 2 ^ mbits

/-- Value of an IEEE-754 bit pattern (same format parameters). -/
def floatOfBits (mbits ewidth : Nat) (ebias : ℤ) (n : Nat) : PyFloat :=
  let s := n / 2 ^ (mbits + ewidth) % 2
  let ef := n / 2 ^ mbits % 2 ^ ewidth
  let mf := n % 2 ^ mbits
  if ef = 2 ^ ewidth - 1 then
    if mf = 0 then (if s = 1 then .neginf else .inf) else .nan
  else
    let v : ℚ :=
      if ef = 0 then mkRat (Int.ofNat mf) 1 * qpow2 (1 - ebias - Int.ofNat mbits)
      else mkRat (Int.ofNat (2 ^ mbits + mf)) 1 *
        qpow2 (Int.ofNat ef - ebias - Int.ofNat mbits)
    .fin (if s = 1 then -v else v)

/-- Smallest magnitude at which binary32 rounding overflows to infinity
(`(2^25 - 1) * 2^103`; the tie at this midpoint resolves to infinity). -/
def f32OverflowBound : ℚ := mkRat 33554431 1 * qpow2 103

/-- Same bound for binary64: the literal value of `(2^54 - 1) * 2^970`
(inlined because a `2^970` power does not evaluate inside the kernel
within stack limits). -/
def f64OverflowBound : ℚ := mkRat 179769313486231580793728971405303415079934132710037826936173778980444968292764750946649017977587207096330286416692887910946555547851940402630657488671505820681908902000708383676273854845817711531764475730270069855571366959622842914819860834936475292719074168444365510704342711559699508093042880177904174497792 1

/-- `struct.pack("!f", x)` as a 32-bit word: `none` models the
`OverflowError` raised when a finite value rounds to infinity. -/
def encodeF32 : PyFloat → Option Nat
  | .fin q => if qabs q < f32OverflowBound then some (floatBits 23 8 127 q) else none
  | .inf => some 2139095040
  | .neginf => some 4286578688
  | .nan => some 2143289344

/-- `struct.pack("!d", x)` as a 64-bit word (every Python float encodes;
the `none` case is unreachable for values that exist as Python floats). -/
def encodeF64 : PyFloat → Option Nat
  | .fin q => if qabs q < f64OverflowBound then some (floatBits 52 11 1023 q) else none
  | .inf => some 9218868437227405312
  | .neginf => some 18442240474082181120
  | .nan => some 9221120237041090560

/-- `struct.unpack("!f", ...)`: the Python float a binary32 word reads
back as. -/
def f32OfBits (n : Nat) : PyFloat := floatOfBits 23 8 127 n

/-- `struct.unpack("!d", ...)`. -/
def f64OfBits (n : Nat) : PyFloat := floatOfBits 52 11 1023 n

-- Validation on reference values computed with CPython's `struct`:
-- 1.0, 2.0, 1000.0, and 9.81 (whose binary64 value is
-- 5522539043063071/2^49 and whose binary32 rounding is 10286531/2^20).
example : encodeF32 (.fin 1) = some 1065353216 := by with_unfolding_all rfl
example : encodeF32 (.fin 2) = some 1073741824 := by with_unfolding_all rfl
example : encodeF64 (.fin 1000) = some 4652007308841189376 := by with_unfolding_all rfl
example : encodeF32 (.fin (5522539043063071 / 562949953421312)) = some 1092416963 := by
  with_unfolding_all rfl
example : f32OfBits 1092416963 = .fin (10286531 / 1048576) := by with_unfolding_all rfl
example : f64OfBits 4652007308841189376 = .fin 1000 := by with_unfolding_all rfl
example : encodeF32 (.fin (mkRat 1 (2 ^ 149))) = some 1 := by with_unfolding_all rfl
example : f32OfBits 1 = .fin (mkRat 1 (2 ^ 149)) := by with_unfolding_all rfl
example : encodeF32 (.fin (-1)) = some 3212836864 := by with_unfolding_all rfl
example : f32OfBits 3212836864 = .fin (-1) := by with_unfolding_all rfl

/-! ### Wire protocol (`src/shared/protocol.py`) -/

/-- `RequestPacket` (Numeric→Plant control command).  `sequence_number`
is a Python `int` (claims restrict it to the u32 range; `struct.pack`
raises outside it), the remaining fields are Python floats. -/
structure RequestPacket where
  sequence_number : Nat
  timestamp : PyFloat
  fx : PyFloat
  fy : PyFloat
  fz : PyFloat
deriving DecidableEq

/-- `ResponsePacket` (Plant→Numeric state reply). -/
structure ResponsePacket where
  sequence_number : Nat
  timestamp : PyFloat
  pos_x : PyFloat
  pos_y : PyFloat
  pos_z : PyFloat
  vel_x : PyFloat
  vel_y : PyFloat
  vel_z : PyFloat
  acc_x : PyFloat
  acc_y : PyFloat
  acc_z : PyFloat
deriving DecidableEq

/-- `struct.calcsize("!IdfffQ")`: 4 + 8 + 3*4 + 8. -/
def REQUEST_SIZE : Nat := 4 + 8 + 3 * 4 + 8

/-- `struct.calcsize("!IdfffffffffQ")`: 4 + 8 + 9*4 + 8 = 56.  `!` means
standard sizes with no padding, so the value is 56; the source comment
`# 72 bytes` miscounts. -/
def RESPONSE_SIZE : Nat := 4 + 8 + 9 * 4 + 8

/-- `struct.pack("!I", n)`: 4 bytes big-endian; raises for `n ≥ 2^32`. -/
def packU32 (n : Nat) : Option (List Nat) :=
  if n < 2 ^ 32 then some (natToBytesBE n 4) else none

/-- `struct.pack("!Q", n)`: 8 bytes big-endian; raises for `n ≥ 2^64`. -/
def packU64 (n : Nat) : Option (List Nat) :=
  if n < 2 ^ 64 then some (natToBytesBE n 8) else none

/-- `struct.pack("!f", x)` as bytes. -/
def packF32 (f : PyFloat) : Option (List Nat) :=
  (encodeF32 f).map (natToBytesBE · 4)

/-- `struct.pack("!d", x)` as bytes. -/
def packF64 (f : PyFloat) : Option (List Nat) :=
  (encodeF64 f).map (natToBytesBE · 8)

/-- The hexadecimal digits of the MD5 digest
(`hashlib.md5(data).hexdigest()`, one byte per two digits, as digit
values `0..15`). -/
def md5hexDigits (data : List Nat) : List Nat :=
  ((md5 data).map (fun b => [b / 16, b % 16])).flatten

/-- `int(hexdigits, 16)`: big-endian base-16 value of a digit string. -/
def fromHexDigits (l : List Nat) : Nat := l.foldl (fun a d => a * 16 + d) 0

/-- `ProtocolHandler.calculate_checksum`:
`int(hashlib.md5(data).hexdigest()[:16], 16)` — the first sixteen hex
digits of the digest read as an integer. -/
def calculate_checksum (data : List Nat) : Nat :=
  fromHexDigits ((md5hexDigits data).take 16)

/-- `ProtocolHandler.pack_request`: pack the header fields
(`struct.pack("!Idfff", ...)`), checksum them, and append the checksum
as a big-endian u64 (`none` models the exceptions `struct.error` /
`OverflowError` for unencodable field values). -/
def pack_request (p : RequestPacket) : Option (List Nat) :=
  match packU32 p.sequence_number, packF64 p.timestamp,
      packF32 p.fx, packF32 p.fy, packF32 p.fz with
  | some sb, some tb, some xb, some yb, some zb =>
    let data_part := sb ++ tb ++ xb ++ yb ++ zb
    let checksum := calculate_checksum data_part
    match packU64 checksum with
    | some cb => some (data_part ++ cb)
    | none => none
  | _, _, _, _, _ => none

/-- `ProtocolHandler.pack_response` (same scheme over the nine f32 state
fields). -/
def pack_response (r : ResponsePacket) : Option (List Nat) :=
  match packU32 r.sequence_number, packF64 r.timestamp,
      packF32 r.pos_x, packF32 r.pos_y, packF32 r.pos_z,
      packF32 r.vel_x, packF32 r.vel_y, packF32 r.vel_z,
      packF32 r.acc_x, packF32 r.acc_y, packF32 r.acc_z with
  | some sb, some tb, some xb, some yb, some zb,
      some vxb, some vyb, some vzb, some axb, some ayb, some azb =>
    let data_part := sb ++ tb ++ xb ++ yb ++ zb ++ vxb ++ vyb ++ vzb ++ axb ++ ayb ++ azb
    let checksum := calculate_checksum data_part
    match packU64 checksum with
    | some cb => some (data_part ++ cb)
    | none => none
  | _, _, _, _, _, _, _, _, _, _, _ => none

/-- `struct.unpack(REQUEST_FORMAT, data)`: succeeds exactly when the
length matches the format size (hence the `try/except struct.error`
around it in `unpack_request` is unreachable after the length check). -/
def struct_unpack_request (data : List Nat) :
    Option (Nat × PyFloat × PyFloat × PyFloat × PyFloat × Nat) :=
  if data.length = REQUEST_SIZE then
    some (bytesToNatBE (data.take 4),
          f64OfBits (bytesToNatBE ((data.drop 4).take 8)),
          f32OfBits (bytesToNatBE ((data.drop 12).take 4)),
          f32OfBits (bytesToNatBE ((data.drop 16).take 4)),
          f32OfBits (bytesToNatBE ((data.drop 20).take 4)),
          bytesToNatBE (data.drop 24))
  else none

/-- `struct.unpack(RESPONSE_FORMAT, data)`. -/
def struct_unpack_response (data : List Nat) :
    Option (Nat × PyFloat × PyFloat × PyFloat × PyFloat × PyFloat × PyFloat ×
      PyFloat × PyFloat × PyFloat × PyFloat × Nat) :=
  if data.length = RESPONSE_SIZE then
    some (bytesToNatBE (data.take 4),
          f64OfBits (bytesToNatBE ((data.drop 4).take 8)),
          f32OfBits (bytesToNatBE ((data.drop 12).take 4)),
          f32OfBits (bytesToNatBE ((data.drop 16).take 4)),
          f32OfBits (bytesToNatBE ((data.drop 20).take 4)),
          f32OfBits (bytesToNatBE ((data.drop 24).take 4)),
          f32OfBits (bytesToNatBE ((data.drop 28).take 4)),
          f32OfBits (bytesToNatBE ((data.drop 32).take 4)),
          f32OfBits (bytesToNatBE ((data.drop 36).take 4)),
          f32OfBits (bytesToNatBE ((data.drop 40).take 4)),
          f32OfBits (bytesToNatBE ((data.drop 44).take 4)),
          bytesToNatBE (data.drop 48))
  else none

/-- `ProtocolHandler.unpack_request`: length check, `struct.unpack`
(with its error caught), checksum recomputation over `data[:-8]`,
comparison, and packet construction; `none` is the `None` of every
failure path. -/
def unpack_request (data : List Nat) : Option RequestPacket :=
  if data.length ≠ REQUEST_SIZE then none
  else
    match struct_unpack_request data with
    | none => none
    | some (seq, timestamp, fx, fy, fz, received_checksum) =>
      let data_part := data.take (data.length - 8)
      let expected_checksum := calculate_checksum data_part
      if received_checksum ≠ expected_checksum then none
      else some ⟨seq, timestamp, fx, fy, fz⟩

/-- `ProtocolHandler.unpack_response`. -/
def unpack_response (data : List Nat) : Option ResponsePacket :=
  if data.length ≠ RESPONSE_SIZE then none
  else
    match struct_unpack_response data with
    | none => none
    | some (seq, timestamp, px, py, pz, vx, vy, vz, ax, ay, az, received_checksum) =>
      let data_part := data.take (data.length - 8)
      let expected_checksum := calculate_checksum data_part
      if received_checksum ≠ expected_checksum then none
      else some ⟨seq, timestamp, px, py, pz, vx, vy, vz, ax, ay, az⟩

-- Validation against CPython (`struct` + `hashlib`): the packed bytes of
-- `RequestPacket(123, 1000.0, 1.0, 2.0, 9.81)`.
example : pack_request ⟨123, .fin 1000, .fin 1, .fin 2,
    .fin (5522539043063071 / 562949953421312)⟩ =
    some [0, 0, 0, 123, 64, 143, 64, 0, 0, 0, 0, 0, 63, 128, 0, 0, 64, 0, 0, 0,
      65, 28, 245, 195, 30, 252, 244, 139, 242, 81, 190, 218] := by
  with_unfolding_all rfl

/-! ### PID controller (`AltitudePIDController`, src/numeric/app/main.py)

The controller's arithmetic is modelled over exact rationals (the claims
about it are algebraic identities and bounds, not rounding statements). -/

/-- `np.clip(x, lo, hi)` = `minimum(maximum(x, lo), hi)`. -/
def npClip (x lo hi : ℚ) : ℚ := min (max x lo) hi

/-- State of `AltitudePIDController` (constructor fields plus the
mutable `error_sum`, `prev_error` and the fixed `integral_limit`). -/
structure AltitudePIDController where
  kp : ℚ
  ki : ℚ
  kd : ℚ
  setpoint : ℚ
  error_sum : ℚ
  prev_error : Option ℚ
  integral_limit : ℚ
deriving DecidableEq

/-- `AltitudePIDController.__init__`: gains and setpoint from arguments,
`error_sum = 0.0`, `prev_error = None`, `integral_limit = 30.0`. -/
def mkController (kp ki kd setpoint : ℚ) : AltitudePIDController :=
  ⟨kp, ki, kd, setpoint, 0, none, 30⟩

/-- `AltitudePIDController.reset`. -/
def AltitudePIDController.reset (c : AltitudePIDController) : AltitudePIDController :=
  { c with error_sum := 0, prev_error := none }

/-- `AltitudePIDController.update(measurement, dt)`: returns the updated
state and the PID output.  Mirrors the source order: error; first-call
initialization of `prev_error`; proportional term; integral accumulation
then clip; derivative term when `dt > 0`; output; store `prev_error`. -/
def AltitudePIDController.update (c : AltitudePIDController) (measurement dt : ℚ) :
    AltitudePIDController × ℚ :=
  let error := c.setpoint - measurement
  let prev := c.prev_error.getD error
  let p_term := c.kp * error
  let error_sum := npClip (c.error_sum + error * dt) (-c.integral_limit) c.integral_limit
  let i_term := c.ki * error_sum
  let d_term := if dt > 0 then c.kd * (error - prev) / dt else 0
  let output := p_term + i_term + d_term
  ({ c with error_sum := error_sum, prev_error := some error }, output)

/-- Run a sequence of `update` calls (measurement, dt), discarding the
outputs; used to state state invariants over whole histories. -/
def pidRun (c : AltitudePIDController) (calls : List (ℚ × ℚ)) : AltitudePIDController :=
  calls.foldl (fun st md => (st.update md.1 md.2).1) c

/-! ### Controller command generation (`NumericClient.get_command`) -/

/-- One row of a loaded scenario CSV as `get_command` reads it
(`row['step']`, `row.get('cmd_type', 'position')`,
`row.get('cmd_z', 10.0)`; absent columns are `none`). -/
structure ScenarioRow where
  step : ℚ
  cmd_type : Option String
  cmd_z : Option ℚ

/-- The scenario-row scan in `get_command`: iterate in order, remember
each row with `row['step'] <= step`, break at the first row beyond
`step`; i.e. the last row of the initial segment with `step ≤` the
current step. -/
def findScenarioRow : List ScenarioRow → ℚ → Option ScenarioRow
  | [], _ => none
  | r :: rest, s =>
    if r.step ≤ s then some ((findScenarioRow rest s).getD r) else none

/-- `NumericClient.get_command(step, current_altitude)`: scenario force
commands are returned directly; scenario position commands retarget the
PID and return `pid + mass*gravity` (no clamp on either scenario path);
the default path returns `np.clip(pid + mass*gravity, 0, 1000)`.
`mass = 1.0`, `gravity = 9.81` are the literals in the source.  Returns
the (possibly updated) controller state with the `(fx, fy, fz)` tuple. -/
def NumericClient.get_command (scenario : Option (List ScenarioRow)) (dt : ℚ)
    (c : AltitudePIDController) (step : Nat) (current_altitude : ℚ) :
    AltitudePIDController × (ℚ × ℚ × ℚ) :=
  let mass : ℚ := 1
  let gravity : ℚ := 981 / 100
  let default_path : AltitudePIDController × (ℚ × ℚ × ℚ) :=
    let r := c.update current_altitude dt
    let thrust := r.2 + mass * gravity
    let max_thrust : ℚ := 1000
    (r.1, (0, 0, npClip thrust 0 max_thrust))
  match scenario with
  | some rows =>
    match findScenarioRow rows (step : ℚ) with
    | some row =>
      let cmd_type := row.cmd_type.getD "position"
      let cmd_z := row.cmd_z.getD 10
      if cmd_type = "force" then (c, (0, 0, cmd_z))
      else
        let c1 := { c with setpoint := cmd_z }
        let r := c1.update current_altitude dt
        (r.1, (0, 0, r.2 + mass * gravity))
    | none => default_path
  | none => default_path

/-! ### Controller network loop (`NumericClient.send_receive_udp` / `run`)

One tick's socket interaction is abstracted by a `NetEvent`: either a
datagram arrives (with the wall-clock send/receive stamps and the
perf-counter RTT the code would measure), or `socket.timeout` fires, or
`sendto`/`recvfrom` raises some other exception.  Timestamps, RTT and
the telemetry numbers are exact rationals. -/

inductive NetEvent where
  | deliver (bytes : List Nat) (send_time recv_time rtt_ms : ℚ)
  | timeout
  | sendError
  | recvError
deriving DecidableEq

/-- The statistics fields of `NumericClient` touched by
`send_receive_udp` (`sent_count`, `received_count`, `timeout_count`,
`rtt_history`). -/
structure CommStats where
  sent_count : Nat
  received_count : Nat
  timeout_count : Nat
  rtt_history : List ℚ
deriving DecidableEq

/-- The value `send_receive_udp` returns: `none` is Python `None`
(invalid response or communication error), `timedOut` is
`{'timeout': True}`, `ok` is the success dictionary. -/
inductive RecvResult where
  | timedOut
  | ok (response : ResponsePacket) (send_time recv_time rtt_ms : ℚ)
deriving DecidableEq

/-- `NumericClient.send_receive_udp(seq, sim_time, fx, fy, fz)`:
pack the request (any exception → the generic handler returns `None`);
send (`sent_count += 1`); receive; on `socket.timeout` count it and
return the timeout dict; on another exception return `None`; unpack the
response; `None` (invalid) → return `None`; otherwise count it, append
the measured RTT to the bounded history and return the success dict.
The function never inspects `response.sequence_number`. -/
def NumericClient.send_receive_udp (stats : CommStats) (seq : Nat) (ts : PyFloat)
    (fx fy fz : PyFloat) (ev : NetEvent) : CommStats × Option RecvResult :=
  match pack_request ⟨seq, ts, fx, fy, fz⟩ with
  | none => (stats, none)
  | some _ =>
    match ev with
    | .sendError => (stats, none)
    | .timeout =>
      ({ stats with sent_count := stats.sent_count + 1,
                    timeout_count := stats.timeout_count + 1 }, some .timedOut)
    | .recvError => ({ stats with sent_count := stats.sent_count + 1 }, none)
    | .deliver bytes send_time recv_time rtt_ms =>
      let stats1 := { stats with sent_count := stats.sent_count + 1 }
      match unpack_response bytes with
      | none => (stats1, none)
      | some response =>
        let hist := stats1.rtt_history ++ [rtt_ms]
        let hist := if hist.length > 1000 then hist.drop (hist.length - 500) else hist
        ({ stats1 with received_count := stats1.received_count + 1,
                       rtt_history := hist },
         some (.ok response send_time recv_time rtt_ms))

/-- One telemetry row of `numeric_log.csv` (header written in
`setup_logging`). -/
structure NumericLogRow where
  seq : Nat
  t : ℚ
  send_time : ℚ
  recv_time : ℚ
  rtt_ms : ℚ
  fx : ℚ
  fy : ℚ
  fz : ℚ
  altitude : ℚ
  velocity : ℚ
  acceleration : ℚ
  altitude_error : ℚ
  setpoint : ℚ
  timeout : Bool
deriving DecidableEq

/-- Numeric value of a finite response field as the tick bookkeeping
uses it (the row-count and RTT claims never exercise non-finite
fields). -/
def PyFloat.toQ : PyFloat → ℚ
  | .fin q => q
  | _ => 0

/-- The per-tick mutable state of `NumericClient.run`. -/
structure ClientState where
  controller : AltitudePIDController
  scenario : Option (List ScenarioRow)
  dt : ℚ
  stats : CommStats
  current_altitude : ℚ
  sim_time : ℚ
  successful_steps : Nat
  failed_steps : Nat

/-- One iteration of the `for step in range(self.max_steps)` loop in
`NumericClient.run`, returning the next state and the telemetry rows the
iteration appends.  `result is None` (communication failure / invalid
response): count a failed step and `continue` — no row.  Timeout: count
a failed step and write the timeout row.  Success: adopt the response
state, write the row, advance `sim_time`. -/
def NumericClient.runStep (s : ClientState) (step : Nat) (ts : PyFloat)
    (ev : NetEvent) : ClientState × List NumericLogRow :=
  let g := NumericClient.get_command s.scenario s.dt s.controller step s.current_altitude
  let c := g.1
  let fx := g.2.1
  let fy := g.2.2.1
  let fz := g.2.2.2
  let sr := NumericClient.send_receive_udp s.stats step ts (.fin fx) (.fin fy) (.fin fz) ev
  let s1 := { s with controller := c, stats := sr.1 }
  match sr.2 with
  | none => ({ s1 with failed_steps := s1.failed_steps + 1 }, [])
  | some .timedOut =>
    ({ s1 with failed_steps := s1.failed_steps + 1 },
     [⟨step, s.sim_time, 0, 0, 0, fx, fy, fz, s.current_altitude, 0, 0, 0,
       c.setpoint, true⟩])
  | some (.ok response send_time recv_time rtt_ms) =>
    let current_altitude := response.pos_z.toQ
    let current_velocity := response.vel_z.toQ
    let current_acceleration := response.acc_z.toQ
    let altitude_error := c.setpoint - current_altitude
    ({ s1 with current_altitude := current_altitude,
               successful_steps := s1.successful_steps + 1,
               sim_time := s.sim_time + s.dt },
     [⟨step, s.sim_time, send_time, recv_time, rtt_ms, fx, fy, fz,
       current_altitude, current_velocity, current_acceleration,
       altitude_error, c.setpoint, false⟩])

/-! ### Plant physics (`SimpleAltitudePlant`, src/plant/app/main.py) -/

/-- State of `SimpleAltitudePlant`. -/
structure SimpleAltitudePlant where
  mass : ℚ
  gravity : ℚ
  position : ℚ
  velocity : ℚ
  acceleration : ℚ
deriving DecidableEq

/-- `SimpleAltitudePlant.update(thrust, dt)`: net force, acceleration,
Euler integration of velocity then position, and the noisy sensor
reading `(position + position_noise, velocity + velocity_noise,
acceleration)`.  The two `np.random.normal(0, 0.005)` draws enter as the
explicit arguments `position_noise`, `velocity_noise` and appear only in
the returned reading. -/
def SimpleAltitudePlant.update (p : SimpleAltitudePlant)
    (thrust dt position_noise velocity_noise : ℚ) :
    SimpleAltitudePlant × (ℚ × ℚ × ℚ) :=
  let net_force := thrust - p.mass * p.gravity
  let acceleration := net_force / p.mass
  let velocity := p.velocity + acceleration * dt
  let position := p.position + velocity * dt
  ({ p with acceleration := acceleration, velocity := velocity, position := position },
   (position + position_noise, velocity + velocity_noise, acceleration))

/-- Iterate `update` with a fixed thrust over a list of
`(dt, position_noise, velocity_noise)` steps, keeping the stored state. -/
def plantRun (p : SimpleAltitudePlant) (thrust : ℚ) :
    List (ℚ × ℚ × ℚ) → SimpleAltitudePlant
  | [] => p
  | step :: rest => plantRun (p.update thrust step.1 step.2.1 step.2.2).1 thrust rest

/-! ### Claims about the PID controller, command clamp and physics -/

theorem npClip_le_hi (x lo hi : ℚ) : npClip x lo hi ≤ hi := min_le_right _ _

theorem npClip_ge_lo (x lo hi : ℚ) (h : lo ≤ hi) : lo ≤ npClip x lo hi :=
  le_min (le_max_right _ _) h

theorem abs_npClip_le (x L : ℚ) (hL : 0 ≤ L) : |npClip x (-L) L| ≤ L :=
  abs_le.mpr ⟨npClip_ge_lo x (-L) L (by linarith), npClip_le_hi x (-L) L⟩

/-- The clamped-integral invariant is preserved by any run of `update`
calls (the limit itself is never modified by `update`). -/
theorem pidRun_error_sum_bound (calls : List (ℚ × ℚ)) :
    ∀ c : AltitudePIDController, |c.error_sum| ≤ c.integral_limit →
      |(pidRun c calls).error_sum| ≤ (pidRun c calls).integral_limit := by
  induction calls with
  | nil => intro c h; simpa [pidRun] using h
  | cons md rest ih =>
    intro c h
    have hL : 0 ≤ c.integral_limit := le_trans (abs_nonneg _) h
    have hstep : |((c.update md.1 md.2).1).error_sum| ≤
        ((c.update md.1 md.2).1).integral_limit := by
      simpa [AltitudePIDController.update] using
        abs_npClip_le (c.error_sum + (c.setpoint - md.1) * md.2) c.integral_limit hL
    simpa [pidRun] using ih _ hstep

/-- C5 (amended): with no scenario loaded, `get_command` returns
`fx = fy = 0` and `fz = np.clip(pid_output + mass * gravity, 0, 1000)`,
hence `fz ∈ [0, 1000]`.  (The scenario paths bypass the clamp, see the
counterexample.) -/
theorem get_command_default_clamped (c : AltitudePIDController) (dt : ℚ)
    (step : Nat) (alt : ℚ) :
    (NumericClient.get_command none dt c step alt).2 =
      (0, 0, npClip ((c.update alt dt).2 + 1 * (981 / 100)) 0 1000)
    ∧ 0 ≤ (NumericClient.get_command none dt c step alt).2.2.2
    ∧ (NumericClient.get_command none dt c step alt).2.2.2 ≤ 1000 := by
  refine ⟨rfl, ?_, ?_⟩
  · exact npClip_ge_lo _ 0 1000 (by norm_num)
  · exact npClip_le_hi _ 0 1000

/-- C5 (counterexample): with a loaded scenario containing the force
command `(step 0, cmd_type "force", cmd_z 2000)`, `get_command` returns
`fz = 2000`, which is neither the clamped PID thrust nor within
`[0, 1000]`. -/
theorem get_command_scenario_unclamped :
    NumericClient.get_command (some [⟨0, some "force", some 2000⟩]) (1 / 100)
        (mkController 10 0 0 10) 0 0 =
      (mkController 10 0 0 10, (0, 0, 2000))
    ∧ ¬((2000 : ℚ) ≤ 1000) := by
  constructor
  · rfl
  · norm_num

/-- C6: `update` computes `e = setpoint − measurement`, clamps the new
`error_sum`, returns `kp*e + ki*error_sum + d` with
`d = kd*(e − prev_error)/dt` for `dt > 0` and `d = 0` otherwise, and
stores `e` in `prev_error`; on the first call (`prev_error = None`)
`prev_error` is initialized to `e` first, so `d = 0`; with
`kp=10, ki=0, kd=0, setpoint=10`, altitude `0`, `dt=0.01` the first
output is `100`, and `get_command` turns it into thrust
`109.81 = 100 + 1*9.81`. -/
theorem pid_update_spec (c : AltitudePIDController) (m dt : ℚ) :
    c.update m dt =
      ({ c with
          error_sum := npClip (c.error_sum + (c.setpoint - m) * dt)
            (-c.integral_limit) c.integral_limit,
          prev_error := some (c.setpoint - m) },
        c.kp * (c.setpoint - m)
          + c.ki * npClip (c.error_sum + (c.setpoint - m) * dt)
              (-c.integral_limit) c.integral_limit
          + (if 0 < dt then
              c.kd * ((c.setpoint - m) - c.prev_error.getD (c.setpoint - m)) / dt
            else 0))
    ∧ (c.prev_error = none →
        (c.update m dt).2 =
          c.kp * (c.setpoint - m)
            + c.ki * npClip (c.error_sum + (c.setpoint - m) * dt)
                (-c.integral_limit) c.integral_limit)
    ∧ ((mkController 10 0 0 10).update 0 (1 / 100)).2 = 100
    ∧ (NumericClient.get_command none (1 / 100) (mkController 10 0 0 10) 0 0).2 =
        (0, 0, 10981 / 100) := by
  refine ⟨rfl, ?_, ?_, ?_⟩
  · intro hnone
    simp only [AltitudePIDController.update, hnone, Option.getD_none]
    split_ifs with h
    · ring_nf
    · ring_nf
  · norm_num [AltitudePIDController.update, mkController, npClip]
  · simp only [NumericClient.get_command, AltitudePIDController.update, mkController]
    norm_num [npClip]

/-- C6 witness: the theorem applied at `kp=1, ki=2, kd=3, setpoint=5`,
measurement `2`, `dt = 1/10`, a freshly constructed controller
(`prev_error = None`), giving output `3 + 2 * (3/10)`. -/
theorem pid_update_spec_witness :
    ((mkController 1 2 3 5).update 2 (1 / 10)).2 = 3 + 2 * (3 / 10) := by
  have h := (pid_update_spec (mkController 1 2 3 5) 2 (1 / 10)).2.1 rfl
  rw [h]
  norm_num [mkController, npClip]

/-- C7: after every sequence of `update` calls from a freshly
constructed controller — or from any controller just cleared by
`reset` — the stored integral satisfies
`|error_sum| ≤ integral_limit` (30 for constructed controllers, the
controller's own limit after `reset` of any state with a nonnegative
limit; the program only ever uses 30). -/
theorem pid_integral_always_bounded (kp ki kd sp : ℚ) (calls : List (ℚ × ℚ))
    (c : AltitudePIDController) :
    |(pidRun (mkController kp ki kd sp) calls).error_sum| ≤
        (pidRun (mkController kp ki kd sp) calls).integral_limit
    ∧ (0 ≤ c.integral_limit →
        |(pidRun c.reset calls).error_sum| ≤ (pidRun c.reset calls).integral_limit) := by
  constructor
  · exact pidRun_error_sum_bound calls _ (by simp [mkController])
  · intro h
    exact pidRun_error_sum_bound calls _ (by simpa [AltitudePIDController.reset] using h)

/-- C7 witness: the bound applied after a concrete two-call history from
a freshly reset controller with limit 30. -/
theorem pid_integral_always_bounded_witness :
    |(pidRun (mkController 1 1 1 100) [(0, 1), (0, 1)]).error_sum| ≤
        (pidRun (mkController 1 1 1 100) [(0, 1), (0, 1)]).integral_limit
    ∧ (0 ≤ (mkController 2 2 2 2).integral_limit ∧
        |(pidRun (mkController 2 2 2 2).reset [(0, 1), (0, 1)]).error_sum| ≤
          (pidRun (mkController 2 2 2 2).reset [(0, 1), (0, 1)]).integral_limit) :=
  ⟨(pid_integral_always_bounded 1 1 1 100 [(0, 1), (0, 1)] (mkController 2 2 2 2)).1,
   by norm_num [mkController],
   (pid_integral_always_bounded 1 1 1 100 [(0, 1), (0, 1)] (mkController 2 2 2 2)).2
     (by norm_num [mkController])⟩

/-- Hover invariant helper: with `mass = 1`, `gravity = 9.81`,
`position = velocity = 0`, applying `thrust = 9.81` keeps the stored
position and velocity at `0` for any step sizes and noise draws. -/
theorem plantRun_hover (steps : List (ℚ × ℚ × ℚ)) :
    ∀ p : SimpleAltitudePlant, p.mass = 1 → p.gravity = 981 / 100 →
      p.position = 0 → p.velocity = 0 →
      (plantRun p (981 / 100) steps).position = 0 ∧
        (plantRun p (981 / 100) steps).velocity = 0 := by
  induction steps with
  | nil => intro p hm hg hp hv; exact ⟨hp, hv⟩
  | cons step rest ih =>
    intro p hm hg hp hv
    have hacc : (981 / 100 - p.mass * p.gravity) / p.mass = 0 := by
      rw [hm, hg]; norm_num
    refine ih _ (by simp [SimpleAltitudePlant.update, hm]) (by simp [SimpleAltitudePlant.update, hg]) ?_ ?_
    · simp [SimpleAltitudePlant.update, hacc, hp, hv]
    · simp [SimpleAltitudePlant.update, hacc, hv]

/-- C8: `SimpleAltitudePlant.update` stores
`acceleration = (thrust − mass*gravity)/mass`, then
`velocity += acceleration*dt`, then `position += velocity*dt`; the noise
draws affect only the returned reading (the stored state is identical
for any two noise draws); and from
`mass=1, gravity=9.81, position=0, velocity=0`, applying `thrust=9.81`
for any number of steps leaves the stored position and velocity at 0. -/
theorem plant_update_spec (p : SimpleAltitudePlant) (thrust dt nP nV nP' nV' : ℚ)
    (steps : List (ℚ × ℚ × ℚ)) :
    (p.update thrust dt nP nV).1 =
      { p with
          acceleration := (thrust - p.mass * p.gravity) / p.mass,
          velocity := p.velocity + (thrust - p.mass * p.gravity) / p.mass * dt,
          position := p.position +
            (p.velocity + (thrust - p.mass * p.gravity) / p.mass * dt) * dt }
    ∧ (p.update thrust dt nP nV).1 = (p.update thrust dt nP' nV').1
    ∧ (p.update thrust dt nP nV).2 =
        ((p.update thrust dt nP nV).1.position + nP,
         (p.update thrust dt nP nV).1.velocity + nV,
         (p.update thrust dt nP nV).1.acceleration)
    ∧ (plantRun ⟨1, 981 / 100, 0, 0, 0⟩ (981 / 100) steps).position = 0
    ∧ (plantRun ⟨1, 981 / 100, 0, 0, 0⟩ (981 / 100) steps).velocity = 0 := by
  refine ⟨rfl, rfl, rfl, ?_, ?_⟩
  · exact (plantRun_hover steps ⟨1, 981 / 100, 0, 0, 0⟩ rfl rfl rfl rfl).1
  · exact (plantRun_hover steps ⟨1, 981 / 100, 0, 0, 0⟩ rfl rfl rfl rfl).2

/-! ### Claims about the Controller tick (row emission, RTT accounting) -/

/-- The statistics fields as `setup_udp_client` initializes them. -/
def baseStats : CommStats := ⟨0, 0, 0, []⟩

/-- A concrete initial tick state: fresh PID controller
(`kp=10, ki=0, kd=0, setpoint=10`), no scenario, `dt = 0.01`, fresh
statistics, `current_altitude = 0`, `sim_time = 0`. -/
def baseClientState : ClientState :=
  ⟨mkController 10 0 0 10, none, 1 / 100, baseStats, 0, 0, 0, 0⟩

/-- C3 (amended): a timeout tick writes exactly one row (marked
`timeout`), and a successfully decoded response writes exactly one row —
but a tick whose send/receive raises, or whose datagram fails to decode
(`unpack_response` returns `None`), writes no row at all: the code
returns `None`, counts a failed step and `continue`s. -/
theorem runStep_row_count (s : ClientState) (step : Nat) (ts : PyFloat)
    (hpack : (pack_request ⟨step, ts,
      .fin (NumericClient.get_command s.scenario s.dt s.controller step
        s.current_altitude).2.1,
      .fin (NumericClient.get_command s.scenario s.dt s.controller step
        s.current_altitude).2.2.1,
      .fin (NumericClient.get_command s.scenario s.dt s.controller step
        s.current_altitude).2.2.2⟩).isSome) :
    ((NumericClient.runStep s step ts .timeout).2.length = 1
      ∧ ∀ r ∈ (NumericClient.runStep s step ts .timeout).2, r.timeout = true)
    ∧ (NumericClient.runStep s step ts .sendError).2 = []
    ∧ (NumericClient.runStep s step ts .recvError).2 = []
    ∧ ∀ bytes sT rT rtt,
        (NumericClient.runStep s step ts (.deliver bytes sT rT rtt)).2.length =
          if (unpack_response bytes).isSome then 1 else 0 := by
  rw [Option.isSome_iff_exists] at hpack
  obtain ⟨bs, hbs⟩ := hpack
  refine ⟨⟨?_, ?_⟩, ?_, ?_, ?_⟩
  · simp [NumericClient.runStep, NumericClient.send_receive_udp, hbs]
  · simp [NumericClient.runStep, NumericClient.send_receive_udp, hbs]
  · simp [NumericClient.runStep, NumericClient.send_receive_udp, hbs]
  · simp [NumericClient.runStep, NumericClient.send_receive_udp, hbs]
  · intro bytes sT rT rtt
    rcases hu : unpack_response bytes with _ | r
    · simp [NumericClient.runStep, NumericClient.send_receive_udp, hbs, hu]
    · simp [NumericClient.runStep, NumericClient.send_receive_udp, hbs, hu]

/-- C3 witness: the theorem applied at the concrete base state, step 0:
the timeout tick writes its single row. -/
theorem runStep_row_count_witness :
    (NumericClient.runStep baseClientState 0 (.fin 0) .timeout).2.length = 1 :=
  (runStep_row_count baseClientState 0 (.fin 0) (by with_unfolding_all rfl)).1.1

/-- C3 (counterexample): a tick whose datagram is the 1-byte string
`[0]` — which `unpack_response` rejects — writes **no** telemetry row;
the request was sent (`sent_count = 1`), the tick is not counted as a
timeout, and it is recorded as a failed step.  This contradicts the
claim that every failure path still produces the tick's row. -/
theorem runStep_invalid_response_no_row :
    (NumericClient.runStep baseClientState 0 (.fin 0) (.deliver [0] 0 0 0)).2 = []
    ∧ (NumericClient.runStep baseClientState 0 (.fin 0)
        (.deliver [0] 0 0 0)).1.stats.sent_count = 1
    ∧ (NumericClient.runStep baseClientState 0 (.fin 0)
        (.deliver [0] 0 0 0)).1.stats.timeout_count = 0
    ∧ (NumericClient.runStep baseClientState 0 (.fin 0)
        (.deliver [0] 0 0 0)).1.failed_steps = 1 := by
  refine ⟨?_, ?_, ?_, ?_⟩ <;> with_unfolding_all rfl

/-- The all-zero response packet with sequence number 999, and its wire
encoding; used to exhibit a reply whose `seq` does not match the pending
request. -/
def mismatchResponse : ResponsePacket :=
  ⟨999, .fin 0, .fin 0, .fin 0, .fin 0, .fin 0, .fin 0, .fin 0, .fin 0, .fin 0, .fin 0⟩

/-- The packed bytes of `mismatchResponse`. -/
def mismatchBytes : List Nat := (pack_response mismatchResponse).getD []

/-- C4 (amended): `send_receive_udp` never compares the response's
sequence number with the request's: any response that decodes is
counted (`received_count += 1`) and returned with the tick's measured
RTT, whatever its `seq`. -/
theorem send_receive_udp_ignores_seq (stats : CommStats) (seq : Nat)
    (ts fx fy fz : PyFloat) (bytes : List Nat) (sT rT rtt : ℚ) (r : ResponsePacket)
    (hunp : unpack_response bytes = some r)
    (hpack : (pack_request ⟨seq, ts, fx, fy, fz⟩).isSome) :
    (NumericClient.send_receive_udp stats seq ts fx fy fz
        (.deliver bytes sT rT rtt)).2 = some (.ok r sT rT rtt)
    ∧ (NumericClient.send_receive_udp stats seq ts fx fy fz
        (.deliver bytes sT rT rtt)).1.received_count = stats.received_count + 1 := by
  rw [Option.isSome_iff_exists] at hpack
  obtain ⟨bs, hbs⟩ := hpack
  constructor <;> simp [NumericClient.send_receive_udp, hbs, hunp]

/-- C4 witness: the theorem applied to the concrete mismatched reply
(`seq 999` against pending request `seq 0`) with RTT 7. -/
theorem send_receive_udp_ignores_seq_witness :
    (NumericClient.send_receive_udp baseStats 0 (.fin 0) (.fin 0) (.fin 0) (.fin 0)
        (.deliver mismatchBytes 1 2 7)).2 = some (.ok mismatchResponse 1 2 7) :=
  (send_receive_udp_ignores_seq baseStats 0 (.fin 0) (.fin 0) (.fin 0) (.fin 0)
    mismatchBytes 1 2 7 mismatchResponse (by with_unfolding_all rfl)
    (by with_unfolding_all rfl)).1

/-- C4 (counterexample): at a tick whose pending request has `seq 0`, a
valid reply carrying `seq 999` is both counted and used: the tick's row
is written with that reply's RTT (7 ms here) and state; no comparison
against the pending `seq` happens anywhere.  This contradicts the claim
that a mismatched-seq reply is not used for the tick's RTT. -/
theorem runStep_mismatched_seq_rtt_logged :
    unpack_response mismatchBytes = some mismatchResponse
    ∧ mismatchResponse.sequence_number ≠ 0
    ∧ (NumericClient.runStep baseClientState 0 (.fin 0)
        (.deliver mismatchBytes 1 2 7)).2 =
        [⟨0, 0, 1, 2, 7, 0, 0, 10981 / 100, 0, 0, 0, 10, 10, false⟩]
    ∧ (NumericClient.runStep baseClientState 0 (.fin 0)
        (.deliver mismatchBytes 1 2 7)).1.stats.received_count = 1 := by
  refine ⟨?_, ?_, ?_, ?_⟩
  · with_unfolding_all rfl
  · decide
  · with_unfolding_all rfl
  · with_unfolding_all rfl

/-! ### Codec plumbing lemmas -/

theorem fromHexDigits_lt (l : List Nat) (h : ∀ d ∈ l, d < 16) :
    fromHexDigits l < 16 ^ l.length := by
  induction l using List.reverseRecOn with
  | nil => simp [fromHexDigits]
  | append_singleton l d ih =>
    have hd : d < 16 := h d (by simp)
    have hl : ∀ x ∈ l, x < 16 := fun x hx => h x (by simp [hx])
    have hfold : fromHexDigits (l ++ [d]) = fromHexDigits l * 16 + d := by
      simp [fromHexDigits]
    have := ih hl
    rw [hfold]
    simp only [List.length_append, List.length_singleton]
    calc fromHexDigits l * 16 + d < (fromHexDigits l + 1) * 16 := by omega
      _ ≤ 16 ^ l.length * 16 := Nat.mul_le_mul_right _ this
      _ = 16 ^ (l.length + 1) := by rw [Nat.pow_succ]

theorem md5hexDigits_lt (data : List Nat) : ∀ d ∈ md5hexDigits data, d < 16 := by
  intro d hd
  simp only [md5hexDigits, List.mem_flatten, List.mem_map] at hd
  obtain ⟨l, ⟨b, hb, rfl⟩, hdl⟩ := hd
  have hb256 : b < 256 := md5_bytes_lt data b hb
  simp only [List.mem_cons, List.mem_singleton, List.not_mem_nil, or_false] at hdl
  rcases hdl with rfl | rfl
  · omega
  · exact Nat.mod_lt _ (by norm_num)

theorem md5hexDigits_length (data : List Nat) : (md5hexDigits data).length = 32 := by
  have key : ∀ l : List Nat,
      ((l.map (fun b => [b / 16, b % 16])).flatten).length = 2 * l.length := by
    intro l
    induction l with
    | nil => simp
    | cons b bs ih =>
      simp only [List.map_cons, List.flatten_cons, List.length_append, ih,
        List.length_cons, List.length_nil]
      omega
  rw [md5hexDigits, key, md5_length]

/-- The checksum always fits in 64 bits, so the `struct.pack("!Q", ...)`
step of `pack_request`/`pack_response` never raises. -/
theorem calculate_checksum_lt (data : List Nat) : calculate_checksum data < 2 ^ 64 := by
  have hlen : ((md5hexDigits data).take 16).length = 16 := by
    rw [List.length_take, md5hexDigits_length]
    omega
  have hdig : ∀ d ∈ (md5hexDigits data).take 16, d < 16 :=
    fun d hd => md5hexDigits_lt data d (List.take_subset _ _ hd)
  have := fromHexDigits_lt _ hdig
  rw [hlen] at this
  calc calculate_checksum data < 16 ^ 16 := this
    _ = 2 ^ 64 := by norm_num

theorem floatBits_lt (mbits ewidth : Nat) (ebias : ℤ) (q : ℚ) :
    floatBits mbits ewidth ebias q < 2 ^ (mbits + ewidth + 1) := by
  simp only [floatBits]
  generalize (floatBitsRaw mbits ebias q) = f
  have hm : (0 : Nat) < 2 ^ mbits := Nat.pos_pow_of_pos _ (by norm_num)
  have he : (0 : Nat) < 2 ^ ewidth := Nat.pos_pow_of_pos _ (by norm_num)
  have h1 : f.1 % 2 ≤ 1 := by omega
  have h2 : f.2.1.toNat % 2 ^ ewidth < 2 ^ ewidth := Nat.mod_lt _ he
  have h3 : f.2.2.toNat % 2 ^ mbits < 2 ^ mbits := Nat.mod_lt _ hm
  have hA : (2 : Nat) ^ (mbits + ewidth) = 2 ^ ewidth * 2 ^ mbits := by
    rw [Nat.pow_add, Nat.mul_comm]
  have hBA : (2 : Nat) ^ mbits ≤ 2 ^ (mbits + ewidth) :=
    Nat.pow_le_pow_right (by norm_num) (Nat.le_add_right _ _)
  have hs : f.1 % 2 * 2 ^ (mbits + ewidth) ≤ 2 ^ (mbits + ewidth) := by
    calc f.1 % 2 * 2 ^ (mbits + ewidth) ≤ 1 * 2 ^ (mbits + ewidth) :=
          Nat.mul_le_mul_right _ h1
      _ = 2 ^ (mbits + ewidth) := Nat.one_mul _
  have hef : f.2.1.toNat % 2 ^ ewidth * 2 ^ mbits ≤ 2 ^ (mbits + ewidth) - 2 ^ mbits := by
    calc f.2.1.toNat % 2 ^ ewidth * 2 ^ mbits ≤ (2 ^ ewidth - 1) * 2 ^ mbits :=
          Nat.mul_le_mul_right _ (by omega)
      _ = 2 ^ ewidth * 2 ^ mbits - 1 * 2 ^ mbits := by rw [Nat.sub_mul]
      _ = 2 ^ (mbits + ewidth) - 2 ^ mbits := by rw [hA, Nat.one_mul]
  have hpow : (2 : Nat) ^ (mbits + ewidth + 1) = 2 ^ (mbits + ewidth) + 2 ^ (mbits + ewidth) := by
    rw [Nat.pow_succ]; omega
  omega

theorem floatBits_f32_lt (q : ℚ) : floatBits 23 8 127 q < 2 ^ 32 :=
  floatBits_lt 23 8 127 q

theorem floatBits_f64_lt (q : ℚ) : floatBits 52 11 1023 q < 2 ^ 64 :=
  floatBits_lt 52 11 1023 q

theorem encodeF32_lt (f : PyFloat) (b : Nat) (h : encodeF32 f = some b) : b < 2 ^ 32 := by
  cases f with
  | fin q =>
    simp only [encodeF32] at h
    split_ifs at h
    · cases h; exact floatBits_f32_lt q
  | inf => cases h; norm_num
  | neginf => cases h; norm_num
  | nan => cases h; norm_num

theorem encodeF64_lt (f : PyFloat) (b : Nat) (h : encodeF64 f = some b) : b < 2 ^ 64 := by
  cases f with
  | fin q =>
    simp only [encodeF64] at h
    split_ifs at h
    · cases h; exact floatBits_f64_lt q
  | inf => cases h; norm_num
  | neginf => cases h; norm_num
  | nan => cases h; norm_num

theorem bytesToNatBE_natToBytesBE_of_lt (n k : Nat) (h : n < 256 ^ k) :
    bytesToNatBE (natToBytesBE n k) = n := by
  rw [bytesToNatBE_natToBytesBE]
  exact Nat.mod_eq_of_lt h

theorem packU32_eq (n : Nat) (b : List Nat) (h : packU32 n = some b) :
    n < 2 ^ 32 ∧ b = natToBytesBE n 4 := by
  simp only [packU32] at h
  split_ifs at h with h32
  · cases h; exact ⟨h32, rfl⟩

theorem packF32_eq (f : PyFloat) (b : List Nat) (h : packF32 f = some b) :
    ∃ w, encodeF32 f = some w ∧ b = natToBytesBE w 4 := by
  simp only [packF32, Option.map_eq_some'] at h
  obtain ⟨w, hw, rfl⟩ := h
  exact ⟨w, hw, rfl⟩

theorem packF64_eq (f : PyFloat) (b : List Nat) (h : packF64 f = some b) :
    ∃ w, encodeF64 f = some w ∧ b = natToBytesBE w 8 := by
  simp only [packF64, Option.map_eq_some'] at h
  obtain ⟨w, hw, rfl⟩ := h
  exact ⟨w, hw, rfl⟩

/-- Structure of a successfully packed request: the five encoded fields
followed by the 8-byte big-endian checksum of the 24-byte header. -/
theorem pack_request_structure (p : RequestPacket) (bs : List Nat)
    (h : pack_request p = some bs) :
    ∃ wt wx wy wz,
      p.sequence_number < 2 ^ 32 ∧
      encodeF64 p.timestamp = some wt ∧
      encodeF32 p.fx = some wx ∧
      encodeF32 p.fy = some wy ∧
      encodeF32 p.fz = some wz ∧
      bs = (natToBytesBE p.sequence_number 4 ++
          (natToBytesBE wt 8 ++
            (natToBytesBE wx 4 ++ (natToBytesBE wy 4 ++ natToBytesBE wz 4)))) ++
        natToBytesBE (calculate_checksum
          (natToBytesBE p.sequence_number 4 ++
            (natToBytesBE wt 8 ++
              (natToBytesBE wx 4 ++ (natToBytesBE wy 4 ++ natToBytesBE wz 4))))) 8 := by
  rw [pack_request.eq_def] at h
  split at h
  case _ sb tb xb yb zb hs ht hx hy hz =>
    obtain ⟨h32, rfl⟩ := packU32_eq _ _ hs
    obtain ⟨wt, hwt, rfl⟩ := packF64_eq _ _ ht
    obtain ⟨wx, hwx, rfl⟩ := packF32_eq _ _ hx
    obtain ⟨wy, hwy, rfl⟩ := packF32_eq _ _ hy
    obtain ⟨wz, hwz, rfl⟩ := packF32_eq _ _ hz
    refine ⟨wt, wx, wy, wz, h32, hwt, hwx, hwy, hwz, ?_⟩
    simp only at h
    split at h
    case _ cb hcb =>
      rw [packU64] at hcb
      split_ifs at hcb with hck
      cases hcb
      cases h
      simp [List.append_assoc]
    case _ hcb =>
      rw [packU64] at hcb
      split_ifs at hcb with hck
      exact absurd (calculate_checksum_lt _) hck
  case _ =>
    exact Option.noConfusion h

/-- Structure of a successfully packed response: the eleven encoded
fields followed by the 8-byte big-endian checksum of the 48-byte
header. -/
theorem pack_response_structure (r : ResponsePacket) (bs : List Nat)
    (h : pack_response r = some bs) :
    ∃ wt wpx wpy wpz wvx wvy wvz wax way waz,
      r.sequence_number < 2 ^ 32 ∧
      encodeF64 r.timestamp = some wt ∧
      encodeF32 r.pos_x = some wpx ∧
      encodeF32 r.pos_y = some wpy ∧
      encodeF32 r.pos_z = some wpz ∧
      encodeF32 r.vel_x = some wvx ∧
      encodeF32 r.vel_y = some wvy ∧
      encodeF32 r.vel_z = some wvz ∧
      encodeF32 r.acc_x = some wax ∧
      encodeF32 r.acc_y = some way ∧
      encodeF32 r.acc_z = some waz ∧
      bs = (natToBytesBE r.sequence_number 4 ++
          (natToBytesBE wt 8 ++
            (natToBytesBE wpx 4 ++ (natToBytesBE wpy 4 ++ (natToBytesBE wpz 4 ++
              (natToBytesBE wvx 4 ++ (natToBytesBE wvy 4 ++ (natToBytesBE wvz 4 ++
                (natToBytesBE wax 4 ++ (natToBytesBE way 4 ++ natToBytesBE waz 4)))))))))) ++
        natToBytesBE (calculate_checksum
          (natToBytesBE r.sequence_number 4 ++
            (natToBytesBE wt 8 ++
              (natToBytesBE wpx 4 ++ (natToBytesBE wpy 4 ++ (natToBytesBE wpz 4 ++
                (natToBytesBE wvx 4 ++ (natToBytesBE wvy 4 ++ (natToBytesBE wvz 4 ++
                  (natToBytesBE wax 4 ++ (natToBytesBE way 4 ++ natToBytesBE waz 4))))))))))) 8 := by
  rw [pack_response.eq_def] at h
  split at h
  case _ sb tb xb yb zb vxb vyb vzb axb ayb azb hs ht hx hy hz hvx hvy hvz hax hay haz =>
    obtain ⟨h32, rfl⟩ := packU32_eq _ _ hs
    obtain ⟨wt, hwt, rfl⟩ := packF64_eq _ _ ht
    obtain ⟨wpx, hwpx, rfl⟩ := packF32_eq _ _ hx
    obtain ⟨wpy, hwpy, rfl⟩ := packF32_eq _ _ hy
    obtain ⟨wpz, hwpz, rfl⟩ := packF32_eq _ _ hz
    obtain ⟨wvx, hwvx, rfl⟩ := packF32_eq _ _ hvx
    obtain ⟨wvy, hwvy, rfl⟩ := packF32_eq _ _ hvy
    obtain ⟨wvz, hwvz, rfl⟩ := packF32_eq _ _ hvz
    obtain ⟨wax, hwax, rfl⟩ := packF32_eq _ _ hax
    obtain ⟨way, hway, rfl⟩ := packF32_eq _ _ hay
    obtain ⟨waz, hwaz, rfl⟩ := packF32_eq _ _ haz
    refine ⟨wt, wpx, wpy, wpz, wvx, wvy, wvz, wax, way, waz, h32,
      hwt, hwpx, hwpy, hwpz, hwvx, hwvy, hwvz, hwax, hway, hwaz, ?_⟩
    simp only at h
    split at h
    case _ cb hcb =>
      rw [packU64] at hcb
      split_ifs at hcb with hck
      cases hcb
      cases h
      simp [List.append_assoc]
    case _ hcb =>
      rw [packU64] at hcb
      split_ifs at hcb with hck
      exact absurd (calculate_checksum_lt _) hck
  case _ =>
    exact Option.noConfusion h

/-- The value a Python float reads back as after an f32 pack/unpack
round trip: its binary32 rounding (identity exactly on
binary32-representable values). -/
def rdF32 (f : PyFloat) : PyFloat :=
  match encodeF32 f with
  | some b => f32OfBits b
  | none => .nan

/-- The value after an f64 pack/unpack round trip (identity on every
finite Python float). -/
def rdF64 (f : PyFloat) : PyFloat :=
  match encodeF64 f with
  | some b => f64OfBits b
  | none => .nan

theorem unpack_pack_request (p : RequestPacket) (bs : List Nat)
    (h : pack_request p = some bs) :
    unpack_request bs =
      some ⟨p.sequence_number, rdF64 p.timestamp, rdF32 p.fx, rdF32 p.fy, rdF32 p.fz⟩ := by
  obtain ⟨wt, wx, wy, wz, h32, hwt, hwx, hwy, hwz, rfl⟩ := pack_request_structure p bs h
  set sb := natToBytesBE p.sequence_number 4 with hsb
  set tb := natToBytesBE wt 8 with htb
  set xb := natToBytesBE wx 4 with hxb
  set yb := natToBytesBE wy 4 with hyb
  set zb := natToBytesBE wz 4 with hzb
  set H := sb ++ (tb ++ (xb ++ (yb ++ zb))) with hH
  set ck := calculate_checksum H with hck
  set cb := natToBytesBE ck 8 with hcb
  have hre : H ++ cb = sb ++ (tb ++ (xb ++ (yb ++ (zb ++ cb)))) := by
    simp [hH, List.append_assoc]
  have hlen : (H ++ cb).length = 32 := by
    simp [hH, hsb, htb, hxb, hyb, hzb, hcb, natToBytesBE_length]
  have take4 : (H ++ cb).take 4 = sb := by
    rw [hre]; exact List.take_left' (natToBytesBE_length _ _)
  have d4 : (H ++ cb).drop 4 = tb ++ (xb ++ (yb ++ (zb ++ cb))) := by
    rw [hre]; exact List.drop_left' (natToBytesBE_length _ _)
  have t8 : ((H ++ cb).drop 4).take 8 = tb := by
    rw [d4]; exact List.take_left' (natToBytesBE_length _ _)
  have d12 : (H ++ cb).drop 12 = xb ++ (yb ++ (zb ++ cb)) := by
    rw [show (12 : ℕ) = 4 + 8 by norm_num, ← List.drop_drop, d4]
    exact List.drop_left' (natToBytesBE_length _ _)
  have t12 : ((H ++ cb).drop 12).take 4 = xb := by
    rw [d12]; exact List.take_left' (natToBytesBE_length _ _)
  have d16 : (H ++ cb).drop 16 = yb ++ (zb ++ cb) := by
    rw [show (16 : ℕ) = 12 + 4 by norm_num, ← List.drop_drop, d12]
    exact List.drop_left' (natToBytesBE_length _ _)
  have t16 : ((H ++ cb).drop 16).take 4 = yb := by
    rw [d16]; exact List.take_left' (natToBytesBE_length _ _)
  have d20 : (H ++ cb).drop 20 = zb ++ cb := by
    rw [show (20 : ℕ) = 16 + 4 by norm_num, ← List.drop_drop, d16]
    exact List.drop_left' (natToBytesBE_length _ _)
  have t20 : ((H ++ cb).drop 20).take 4 = zb := by
    rw [d20]; exact List.take_left' (natToBytesBE_length _ _)
  have d24 : (H ++ cb).drop 24 = cb := by
    rw [show (24 : ℕ) = 20 + 4 by norm_num, ← List.drop_drop, d20]
    exact List.drop_left' (natToBytesBE_length _ _)
  have take24 : (H ++ cb).take 24 = H := by
    refine List.take_left' ?_
    simp [hH, hsb, htb, hxb, hyb, hzb, natToBytesBE_length]
  have hseq : bytesToNatBE sb = p.sequence_number := by
    rw [hsb]
    exact bytesToNatBE_natToBytesBE_of_lt _ _ (by norm_num at h32 ⊢; exact h32)
  have hwt64 : bytesToNatBE tb = wt := by
    rw [htb]
    exact bytesToNatBE_natToBytesBE_of_lt _ _
      (by have := encodeF64_lt _ _ hwt; norm_num at this ⊢; exact this)
  have hwx32 : bytesToNatBE xb = wx := by
    rw [hxb]
    exact bytesToNatBE_natToBytesBE_of_lt _ _
      (by have := encodeF32_lt _ _ hwx; norm_num at this ⊢; exact this)
  have hwy32 : bytesToNatBE yb = wy := by
    rw [hyb]
    exact bytesToNatBE_natToBytesBE_of_lt _ _
      (by have := encodeF32_lt _ _ hwy; norm_num at this ⊢; exact this)
  have hwz32 : bytesToNatBE zb = wz := by
    rw [hzb]
    exact bytesToNatBE_natToBytesBE_of_lt _ _
      (by have := encodeF32_lt _ _ hwz; norm_num at this ⊢; exact this)
  have hckbytes : bytesToNatBE cb = ck := by
    rw [hcb]
    exact bytesToNatBE_natToBytesBE_of_lt _ _
      (by have := calculate_checksum_lt H; rw [← hck] at this; norm_num at this ⊢; exact this)
  have hne : ¬((H ++ cb).length ≠ REQUEST_SIZE) := by
    rw [hlen]; norm_num [REQUEST_SIZE]
  have hsu : struct_unpack_request (H ++ cb) =
      some (p.sequence_number, f64OfBits wt, f32OfBits wx, f32OfBits wy, f32OfBits wz, ck) := by
    rw [struct_unpack_request, if_pos (by rw [hlen]; norm_num [REQUEST_SIZE])]
    rw [take4, t8, t12, t16, t20, d24, hseq, hwt64, hwx32, hwy32, hwz32, hckbytes]
  have hdp : (H ++ cb).take ((H ++ cb).length - 8) = H := by
    rw [hlen]
    norm_num
    exact take24
  rw [unpack_request, if_neg hne, hsu]
  simp only [hdp, ← hck]
  simp [rdF32, rdF64, hwt, hwx, hwy, hwz]

theorem unpack_pack_response (r : ResponsePacket) (bs : List Nat)
    (h : pack_response r = some bs) :
    unpack_response bs =
      some ⟨r.sequence_number, rdF64 r.timestamp, rdF32 r.pos_x, rdF32 r.pos_y,
        rdF32 r.pos_z, rdF32 r.vel_x, rdF32 r.vel_y, rdF32 r.vel_z,
        rdF32 r.acc_x, rdF32 r.acc_y, rdF32 r.acc_z⟩ := by
  obtain ⟨wt, wpx, wpy, wpz, wvx, wvy, wvz, wax, way, waz, h32, hwt, hwpx, hwpy,
    hwpz, hwvx, hwvy, hwvz, hwax, hway, hwaz, rfl⟩ := pack_response_structure r bs h
  set sb := natToBytesBE r.sequence_number 4 with hsb
  set tb := natToBytesBE wt 8 with htb
  set pxb := natToBytesBE wpx 4 with hpxb
  set pyb := natToBytesBE wpy 4 with hpyb
  set pzb := natToBytesBE wpz 4 with hpzb
  set vxb := natToBytesBE wvx 4 with hvxb
  set vyb := natToBytesBE wvy 4 with hvyb
  set vzb := natToBytesBE wvz 4 with hvzb
  set axb := natToBytesBE wax 4 with haxb
  set ayb := natToBytesBE way 4 with hayb
  set azb := natToBytesBE waz 4 with hazb
  set H := sb ++ (tb ++ (pxb ++ (pyb ++ (pzb ++ (vxb ++ (vyb ++ (vzb ++ (axb ++ (ayb ++ azb))))))))) with hH
  set ck := calculate_checksum H with hck
  set cb := natToBytesBE ck 8 with hcb
  have hre : H ++ cb = sb ++ (tb ++ (pxb ++ (pyb ++ (pzb ++ (vxb ++ (vyb ++ (vzb ++ (axb ++ (ayb ++ (azb ++ cb)))))))))) := by
    simp [hH, List.append_assoc]
  have hlen : (H ++ cb).length = 56 := by
    simp [hH, hsb, htb, hpxb, hpyb, hpzb, hvxb, hvyb, hvzb, haxb, hayb, hazb, hcb, natToBytesBE_length]
  have take4 : (H ++ cb).take 4 = sb := by
    rw [hre]; exact List.take_left' (natToBytesBE_length _ _)
  have d4 : (H ++ cb).drop 4 = tb ++ (pxb ++ (pyb ++ (pzb ++ (vxb ++ (vyb ++ (vzb ++ (axb ++ (ayb ++ (azb ++ cb))))))))) := by
    rw [hre]; exact List.drop_left' (natToBytesBE_length _ _)
  have t8 : ((H ++ cb).drop 4).take 8 = tb := by
    rw [d4]; exact List.take_left' (natToBytesBE_length _ _)
  have d12 : (H ++ cb).drop 12 = pxb ++ (pyb ++ (pzb ++ (vxb ++ (vyb ++ (vzb ++ (axb ++ (ayb ++ (azb ++ cb)))))))) := by
    rw [show (12 : ℕ) = 4 + 8 by norm_num, ← List.drop_drop, d4]
    exact List.drop_left' (natToBytesBE_length _ _)
  have t12 : ((H ++ cb).drop 12).take 4 = pxb := by
    rw [d12]; exact List.take_left' (natToBytesBE_length _ _)
  have d16 : (H ++ cb).drop 16 = pyb ++ (pzb ++ (vxb ++ (vyb ++ (vzb ++ (axb ++ (ayb ++ (azb ++ cb))))))) := by
    rw [show (16 : ℕ) = 12 + 4 by norm_num, ← List.drop_drop, d12]
    exact List.drop_left' (natToBytesBE_length _ _)
  have t16 : ((H ++ cb).drop 16).take 4 = pyb := by
    rw [d16]; exact List.take_left' (natToBytesBE_length _ _)
  have d20 : (H ++ cb).drop 20 = pzb ++ (vxb ++ (vyb ++ (vzb ++ (axb ++ (ayb ++ (azb ++ cb)))))) := by
    rw [show (20 : ℕ) = 16 + 4 by norm_num, ← List.drop_drop, d16]
    exact List.drop_left' (natToBytesBE_length _ _)
  have t20 : ((H ++ cb).drop 20).take 4 = pzb := by
    rw [d20]; exact List.take_left' (natToBytesBE_length _ _)
  have d24 : (H ++ cb).drop 24 = vxb ++ (vyb ++ (vzb ++ (axb ++ (ayb ++ (azb ++ cb))))) := by
    rw [show (24 : ℕ) = 20 + 4 by norm_num, ← List.drop_drop, d20]
    exact List.drop_left' (natToBytesBE_length _ _)
  have t24 : ((H ++ cb).drop 24).take 4 = vxb := by
    rw [d24]; exact List.take_left' (natToBytesBE_length _ _)
  have d28 : (H ++ cb).drop 28 = vyb ++ (vzb ++ (axb ++ (ayb ++ (azb ++ cb)))) := by
    rw [show (28 : ℕ) = 24 + 4 by norm_num, ← List.drop_drop, d24]
    exact List.drop_left' (natToBytesBE_length _ _)
  have t28 : ((H ++ cb).drop 28).take 4 = vyb := by
    rw [d28]; exact List.take_left' (natToBytesBE_length _ _)
  have d32 : (H ++ cb).drop 32 = vzb ++ (axb ++ (ayb ++ (azb ++ cb))) := by
    rw [show (32 : ℕ) = 28 + 4 by norm_num, ← List.drop_drop, d28]
    exact List.drop_left' (natToBytesBE_length _ _)
  have t32 : ((H ++ cb).drop 32).take 4 = vzb := by
    rw [d32]; exact List.take_left' (natToBytesBE_length _ _)
  have d36 : (H ++ cb).drop 36 = axb ++ (ayb ++ (azb ++ cb)) := by
    rw [show (36 : ℕ) = 32 + 4 by norm_num, ← List.drop_drop, d32]
    exact List.drop_left' (natToBytesBE_length _ _)
  have t36 : ((H ++ cb).drop 36).take 4 = axb := by
    rw [d36]; exact List.take_left' (natToBytesBE_length _ _)
  have d40 : (H ++ cb).drop 40 = ayb ++ (azb ++ cb) := by
    rw [show (40 : ℕ) = 36 + 4 by norm_num, ← List.drop_drop, d36]
    exact List.drop_left' (natToBytesBE_length _ _)
  have t40 : ((H ++ cb).drop 40).take 4 = ayb := by
    rw [d40]; exact List.take_left' (natToBytesBE_length _ _)
  have d44 : (H ++ cb).drop 44 = azb ++ cb := by
    rw [show (44 : ℕ) = 40 + 4 by norm_num, ← List.drop_drop, d40]
    exact List.drop_left' (natToBytesBE_length _ _)
  have t44 : ((H ++ cb).drop 44).take 4 = azb := by
    rw [d44]; exact List.take_left' (natToBytesBE_length _ _)
  have d48 : (H ++ cb).drop 48 = cb := by
    rw [show (48 : ℕ) = 44 + 4 by norm_num, ← List.drop_drop, d44]
    exact List.drop_left' (natToBytesBE_length _ _)
  have take48 : (H ++ cb).take 48 = H := by
    refine List.take_left' ?_
    simp [hH, hsb, htb, hpxb, hpyb, hpzb, hvxb, hvyb, hvzb, haxb, hayb, hazb, natToBytesBE_length]
  have hseq : bytesToNatBE sb = r.sequence_number := by
    rw [hsb]
    exact bytesToNatBE_natToBytesBE_of_lt _ _ (by norm_num at h32 ⊢; exact h32)
  have hwt64 : bytesToNatBE tb = wt := by
    rw [htb]
    exact bytesToNatBE_natToBytesBE_of_lt _ _
      (by have := encodeF64_lt _ _ hwt; norm_num at this ⊢; exact this)
  have hwpx32 : bytesToNatBE pxb = wpx := by
    rw [hpxb]
    exact bytesToNatBE_natToBytesBE_of_lt _ _
      (by have := encodeF32_lt _ _ hwpx; norm_num at this ⊢; exact this)
  have hwpy32 : bytesToNatBE pyb = wpy := by
    rw [hpyb]
    exact bytesToNatBE_natToBytesBE_of_lt _ _
      (by have := encodeF32_lt _ _ hwpy; norm_num at this ⊢; exact this)
  have hwpz32 : bytesToNatBE pzb = wpz := by
    rw [hpzb]
    exact bytesToNatBE_natToBytesBE_of_lt _ _
      (by have := encodeF32_lt _ _ hwpz; norm_num at this ⊢; exact this)
  have hwvx32 : bytesToNatBE vxb = wvx := by
    rw [hvxb]
    exact bytesToNatBE_natToBytesBE_of_lt _ _
      (by have := encodeF32_lt _ _ hwvx; norm_num at this ⊢; exact this)
  have hwvy32 : bytesToNatBE vyb = wvy := by
    rw [hvyb]
    exact bytesToNatBE_natToBytesBE_of_lt _ _
      (by have := encodeF32_lt _ _ hwvy; norm_num at this ⊢; exact this)
  have hwvz32 : bytesToNatBE vzb = wvz := by
    rw [hvzb]
    exact bytesToNatBE_natToBytesBE_of_lt _ _
      (by have := encodeF32_lt _ _ hwvz; norm_num at this ⊢; exact this)
  have hwax32 : bytesToNatBE axb = wax := by
    rw [haxb]
    exact bytesToNatBE_natToBytesBE_of_lt _ _
      (by have := encodeF32_lt _ _ hwax; norm_num at this ⊢; exact this)
  have hway32 : bytesToNatBE ayb = way := by
    rw [hayb]
    exact bytesToNatBE_natToBytesBE_of_lt _ _
      (by have := encodeF32_lt _ _ hway; norm_num at this ⊢; exact this)
  have hwaz32 : bytesToNatBE azb = waz := by
    rw [hazb]
    exact bytesToNatBE_natToBytesBE_of_lt _ _
      (by have := encodeF32_lt _ _ hwaz; norm_num at this ⊢; exact this)
  have hckbytes : bytesToNatBE cb = ck := by
    rw [hcb]
    exact bytesToNatBE_natToBytesBE_of_lt _ _
      (by have := calculate_checksum_lt H; rw [← hck] at this; norm_num at this ⊢; exact this)
  have hne : ¬((H ++ cb).length ≠ RESPONSE_SIZE) := by
    rw [hlen]; norm_num [RESPONSE_SIZE]
  have hsu : struct_unpack_response (H ++ cb) =
      some (r.sequence_number, f64OfBits wt, f32OfBits wpx, f32OfBits wpy,
        f32OfBits wpz, f32OfBits wvx, f32OfBits wvy, f32OfBits wvz,
        f32OfBits wax, f32OfBits way, f32OfBits waz, ck) := by
    rw [struct_unpack_response, if_pos (by rw [hlen]; norm_num [RESPONSE_SIZE])]
    rw [take4, t8, t12, t16, t20, t24, t28, t32, t36, t40, t44, d48, hseq, hwt64, hwpx32, hwpy32, hwpz32, hwvx32, hwvy32, hwvz32, hwax32, hway32, hwaz32, hckbytes]
  have hdp : (H ++ cb).take ((H ++ cb).length - 8) = H := by
    rw [hlen]
    norm_num
    exact take48
  rw [unpack_response, if_neg hne, hsu]
  simp only [hdp, ← hck]
  simp [rdF32, rdF64, hwt, hwpx, hwpy, hwpz, hwvx, hwvy, hwvz, hwax, hway, hwaz]
/-- Folding the hex digits of a byte list accumulates the same value as
folding the bytes (each byte contributes `b = 16*(b/16) + b%16`). -/
theorem fromHex_flatten_pairs (l : List Nat) :
    ∀ a : Nat, ((l.map (fun b => [b / 16, b % 16])).flatten).foldl
        (fun x d => x * 16 + d) a = l.foldl (fun x b => x * 256 + b) a := by
  induction l with
  | nil => intro a; rfl
  | cons b bs ih =>
    intro a
    simp only [List.map_cons, List.flatten_cons, List.cons_append, List.nil_append,
      List.foldl_cons]
    rw [ih]
    congr 1
    omega

/-- Taking `2k` hex digits is taking the digits of the first `k` bytes. -/
theorem take_flatten_pairs (k : Nat) (l : List Nat) :
    ((l.map (fun b => [b / 16, b % 16])).flatten).take (2 * k) =
      ((l.take k).map (fun b => [b / 16, b % 16])).flatten := by
  induction k generalizing l with
  | zero => simp
  | succ k ih =>
    cases l with
    | nil => simp
    | cons b bs =>
      simp only [List.map_cons, List.flatten_cons, List.cons_append, List.nil_append,
        List.take_succ_cons]
      rw [show 2 * (k + 1) = 2 * k + 1 + 1 by ring]
      simp only [List.take_succ_cons]
      rw [ih]

/-- `calculate_checksum` equals the first eight digest bytes read as a
big-endian integer. -/
theorem calculate_checksum_eq_take8 (data : List Nat) :
    calculate_checksum data = bytesToNatBE ((md5 data).take 8) := by
  rw [calculate_checksum, md5hexDigits, fromHexDigits,
    show (16 : ℕ) = 2 * 8 by norm_num, take_flatten_pairs, bytesToNatBE]
  exact fromHex_flatten_pairs _ 0

/-- `calculate_checksum` equals the *high* 64 bits of the 128-bit digest
value (not the low 64 bits). -/
theorem calculate_checksum_eq_high_bits (data : List Nat) :
    calculate_checksum data = bytesToNatBE (md5 data) / 2 ^ 64 := by
  have hsplit : md5 data = (md5 data).take 8 ++ (md5 data).drop 8 :=
    (List.take_append_drop _ _).symm
  have hdlen : ((md5 data).drop 8).length = 8 := by
    rw [List.length_drop, md5_length]
  have hdlt : bytesToNatBE ((md5 data).drop 8) < 2 ^ 64 := by
    have := bytesToNatBE_lt ((md5 data).drop 8)
      (fun b hb => md5_bytes_lt data b (List.drop_subset _ _ hb))
    rw [hdlen] at this
    calc bytesToNatBE ((md5 data).drop 8) < 256 ^ 8 := this
      _ = 2 ^ 64 := by norm_num
  rw [calculate_checksum_eq_take8]
  conv_rhs => rw [hsplit]
  rw [bytesToNatBE_append, hdlen]
  rw [show (256 : ℕ) ^ 8 = 2 ^ 64 by norm_num]
  omega

/-! ### Claims about the codec -/

/-- The spec's codec round-trip example packet:
`RequestPacket(seq=123, timestamp=1000.0, fx=1.0, fy=2.0, fz=9.81)`
(9.81 as a Python float is exactly `5522539043063071/2^49`). -/
def exampleRequest : RequestPacket :=
  ⟨123, .fin 1000, .fin 1, .fin 2, .fin (5522539043063071 / 562949953421312)⟩

/-- Its wire encoding (cross-checked against CPython above). -/
def exampleRequestBytes : List Nat :=
  [0, 0, 0, 123, 64, 143, 64, 0, 0, 0, 0, 0, 63, 128, 0, 0, 64, 0, 0, 0,
   65, 28, 245, 195, 30, 252, 244, 139, 242, 81, 190, 218]

/-- Its 24-byte checksummed header. -/
def exampleRequestHeader : List Nat :=
  [0, 0, 0, 123, 64, 143, 64, 0, 0, 0, 0, 0, 63, 128, 0, 0, 64, 0, 0, 0,
   65, 28, 245, 195]

/-- C1 (amended): whenever packing succeeds, `unpack ∘ pack` returns the
packet with `seq` preserved, the f64 `timestamp` read back through its
binary64 encoding (the identity for every Python float), and each force
or state field replaced by its binary32 rounding `rdF32` — the identity
exactly on binary32-representable values, which `9.81` is not. -/
theorem codec_roundtrip_amended (p : RequestPacket) (r : ResponsePacket)
    (bsp bsr : List Nat)
    (hp : pack_request p = some bsp) (hr : pack_response r = some bsr) :
    unpack_request bsp =
      some ⟨p.sequence_number, rdF64 p.timestamp, rdF32 p.fx, rdF32 p.fy, rdF32 p.fz⟩
    ∧ unpack_response bsr =
      some ⟨r.sequence_number, rdF64 r.timestamp, rdF32 r.pos_x, rdF32 r.pos_y,
        rdF32 r.pos_z, rdF32 r.vel_x, rdF32 r.vel_y, rdF32 r.vel_z,
        rdF32 r.acc_x, rdF32 r.acc_y, rdF32 r.acc_z⟩ :=
  ⟨unpack_pack_request p bsp hp, unpack_pack_response r bsr hr⟩

/-- C1 witness: the amended round-trip applied to the spec's example
request and to the concrete all-zero response. -/
theorem codec_roundtrip_amended_witness :
    unpack_request exampleRequestBytes =
      some ⟨123, rdF64 (.fin 1000), rdF32 (.fin 1), rdF32 (.fin 2),
        rdF32 (.fin (5522539043063071 / 562949953421312))⟩
    ∧ unpack_response mismatchBytes =
      some ⟨999, rdF64 (.fin 0), rdF32 (.fin 0), rdF32 (.fin 0), rdF32 (.fin 0),
        rdF32 (.fin 0), rdF32 (.fin 0), rdF32 (.fin 0), rdF32 (.fin 0),
        rdF32 (.fin 0), rdF32 (.fin 0)⟩ := by
  have h := codec_roundtrip_amended exampleRequest mismatchResponse
    exampleRequestBytes mismatchBytes (by with_unfolding_all rfl)
    (by with_unfolding_all rfl)
  exact ⟨h.1, h.2⟩

/-- C1 (counterexample): the spec's own example
`RequestPacket(123, 1000.0, 1.0, 2.0, 9.81)` does *not* round-trip to an
equal packet: `fz` comes back as the binary32 value
`10286531/2^20 = 9.81000041961669921875 ≠ 9.81`, so not all fields
compare equal (and the universally quantified round-trip law fails). -/
theorem codec_roundtrip_counterexample :
    pack_request exampleRequest = some exampleRequestBytes
    ∧ unpack_request exampleRequestBytes =
        some ⟨123, .fin 1000, .fin 1, .fin 2, .fin (10286531 / 1048576)⟩
    ∧ unpack_request exampleRequestBytes ≠ some exampleRequest
    ∧ (10286531 / 1048576 : ℚ) ≠ 5522539043063071 / 562949953421312 := by
  have h2 : unpack_request exampleRequestBytes =
      some ⟨123, .fin 1000, .fin 1, .fin 2, .fin (10286531 / 1048576)⟩ := by
    with_unfolding_all rfl
  have hne : (10286531 / 1048576 : ℚ) ≠ 5522539043063071 / 562949953421312 := by
    with_unfolding_all decide
  refine ⟨by with_unfolding_all rfl, h2, ?_, hne⟩
  intro heq
  rw [h2] at heq
  have hfz := congrArg (fun o => (o.getD exampleRequest).fz) heq
  simp only [Option.getD_some, exampleRequest] at hfz
  exact absurd (PyFloat.fin.inj hfz) hne

/-- C2 (amended): the checksum appended by `pack_request`/`pack_response`
is the **first eight bytes** of the MD5 digest read big-endian — i.e.
the *high* 64 bits of the 128-bit digest value, not the low 64 — over
the preceding **24** header bytes for requests and **48** (not 64) for
responses; and for a frame of the right length, `unpack` succeeds
exactly when the stored checksum equals that same recomputation over
the frame's header bytes. -/
theorem checksum_amended (data : List Nat) (p : RequestPacket) (r : ResponsePacket)
    (bsp bsr breq bresp : List Nat)
    (hp : pack_request p = some bsp) (hr : pack_response r = some bsr)
    (hl1 : breq.length = 32) (hl2 : bresp.length = 56) :
    calculate_checksum data = bytesToNatBE (md5 data) / 2 ^ 64
    ∧ (∃ H, H.length = 24 ∧ bsp = H ++ natToBytesBE (calculate_checksum H) 8)
    ∧ (∃ H, H.length = 48 ∧ bsr = H ++ natToBytesBE (calculate_checksum H) 8)
    ∧ ((unpack_request breq).isSome ↔
        bytesToNatBE (breq.drop 24) = calculate_checksum (breq.take 24))
    ∧ ((unpack_response bresp).isSome ↔
        bytesToNatBE (bresp.drop 48) = calculate_checksum (bresp.take 48)) := by
  refine ⟨calculate_checksum_eq_high_bits data, ?_, ?_, ?_, ?_⟩
  · obtain ⟨wt, wx, wy, wz, h32, hwt, hwx, hwy, hwz, rfl⟩ :=
      pack_request_structure p bsp hp
    exact ⟨_, by simp [natToBytesBE_length], rfl⟩
  · obtain ⟨wt, wpx, wpy, wpz, wvx, wvy, wvz, wax, way, waz, h32,
      hwt, hwpx, hwpy, hwpz, hwvx, hwvy, hwvz, hwax, hway, hwaz, rfl⟩ :=
      pack_response_structure r bsr hr
    exact ⟨_, by simp [natToBytesBE_length], rfl⟩
  · rw [unpack_request, struct_unpack_request]
    simp only [hl1, REQUEST_SIZE]
    norm_num
  · rw [unpack_response, struct_unpack_response]
    simp only [hl2, RESPONSE_SIZE]
    norm_num

/-- C2 witness: applied to the example request header, the example
packed frames and their lengths; the `isSome` side of the comparison is
realized on the concrete request frame. -/
theorem checksum_amended_witness :
    calculate_checksum exampleRequestHeader =
      bytesToNatBE (md5 exampleRequestHeader) / 2 ^ 64
    ∧ (unpack_request exampleRequestBytes).isSome := by
  have h := checksum_amended exampleRequestHeader exampleRequest mismatchResponse
    exampleRequestBytes mismatchBytes exampleRequestBytes mismatchBytes
    (by with_unfolding_all rfl) (by with_unfolding_all rfl)
    (by with_unfolding_all rfl) (by with_unfolding_all rfl)
  exact ⟨h.1, (h.2.2.2.1).mpr (by with_unfolding_all rfl)⟩

/-- C2 (counterexample): on the example 24-byte request header the
stored checksum `0x1efcf48bf251beda` (the first 16 hex digits of the
digest) differs from the digest's low 64 bits `0xf251beda...`; and the
response checksum covers 48 bytes, not the claimed 64 (the response
frame is 56 bytes with an 8-byte checksum). -/
theorem checksum_counterexample :
    calculate_checksum exampleRequestHeader = 2232928397171998426
    ∧ bytesToNatBE (md5 exampleRequestHeader) % 2 ^ 64 = 6866801829806752469
    ∧ calculate_checksum exampleRequestHeader ≠
        bytesToNatBE (md5 exampleRequestHeader) % 2 ^ 64
    ∧ mismatchBytes.length - 8 = 48
    ∧ (48 : Nat) ≠ 64 := by
  refine ⟨by decide, by decide, by decide, by with_unfolding_all rfl, by decide⟩

/-- C9 (amended): `pack_request` frames are exactly 32 bytes and
`pack_response` frames exactly **56** bytes (`!` struct formats have no
padding: 4+8+9·4+8 = 56, not the 72 the source comment and spec claim);
`unpack_request` rejects any length other than 32 and `unpack_response`
any length other than 56, before any decoding. -/
theorem frame_sizes_amended (p : RequestPacket) (r : ResponsePacket)
    (bsp bsr bs bs2 : List Nat)
    (hp : pack_request p = some bsp) (hr : pack_response r = some bsr)
    (h1 : bs.length ≠ 32) (h2 : bs2.length ≠ 56) :
    bsp.length = 32 ∧ bsr.length = 56
    ∧ unpack_request bs = none ∧ unpack_response bs2 = none := by
  refine ⟨?_, ?_, ?_, ?_⟩
  · obtain ⟨wt, wx, wy, wz, h32, hwt, hwx, hwy, hwz, rfl⟩ :=
      pack_request_structure p bsp hp
    simp [natToBytesBE_length]
  · obtain ⟨wt, wpx, wpy, wpz, wvx, wvy, wvz, wax, way, waz, h32,
      hwt, hwpx, hwpy, hwpz, hwvx, hwvy, hwvz, hwax, hway, hwaz, rfl⟩ :=
      pack_response_structure r bsr hr
    simp [natToBytesBE_length]
  · rw [unpack_request, if_pos (by simpa [REQUEST_SIZE] using h1)]
  · rw [unpack_response, if_pos (by simpa [RESPONSE_SIZE] using h2)]

/-- C9 witness: the sizes realized on the example frames, and rejection
of the 1-byte datagram `[0]`. -/
theorem frame_sizes_amended_witness :
    exampleRequestBytes.length = 32 ∧ mismatchBytes.length = 56
    ∧ unpack_request [0] = none ∧ unpack_response [0] = none :=
  frame_sizes_amended exampleRequest mismatchResponse exampleRequestBytes
    mismatchBytes [0] [0] (by with_unfolding_all rfl) (by with_unfolding_all rfl)
    (by decide) (by decide)

/-- C9 (counterexample): a packed response is 56 bytes, not 72 — and a
56-byte frame (length ≠ 72) is *accepted* by `unpack_response`, so both
halves of the 72-byte claim fail on the code. -/
theorem frame_sizes_counterexample :
    pack_response mismatchResponse = some mismatchBytes
    ∧ mismatchBytes.length = 56
    ∧ (56 : Nat) ≠ 72
    ∧ unpack_response mismatchBytes ≠ none := by
  refine ⟨by with_unfolding_all rfl, by with_unfolding_all rfl, by decide, ?_⟩
  intro hnone
  have hsome : unpack_response mismatchBytes = some mismatchResponse := by
    with_unfolding_all rfl
  rw [hsome] at hnone
  exact Option.noConfusion hnone

/-- C10: the decoders are total: the `struct.unpack` step succeeds on
every byte string of the checked length (so the `except struct.error`
is unreachable after the length test), and on every input whatsoever
`unpack_request`/`unpack_response` return either `Invalid` (`None`) or a
decoded packet — no other outcome exists. -/
theorem unpack_total (bs bs2 : List Nat) :
    (bs.length = 32 → (struct_unpack_request bs).isSome)
    ∧ (bs2.length = 56 → (struct_unpack_response bs2).isSome)
    ∧ (unpack_request bs = none ∨ ∃ p, unpack_request bs = some p)
    ∧ (unpack_response bs2 = none ∨ ∃ r, unpack_response bs2 = some r) := by
  refine ⟨?_, ?_, ?_, ?_⟩
  · intro h
    rw [struct_unpack_request, if_pos (by simpa [REQUEST_SIZE] using h)]
    rfl
  · intro h
    rw [struct_unpack_response, if_pos (by simpa [RESPONSE_SIZE] using h)]
    rfl
  · rcases h : unpack_request bs with _ | p
    · exact Or.inl rfl
    · exact Or.inr ⟨p, rfl⟩
  · rcases h : unpack_response bs2 with _ | r
    · exact Or.inl rfl
    · exact Or.inr ⟨r, rfl⟩

/-- C10 witness: totality realized on the all-zero 32- and 56-byte
frames (whose checksums do not match, exercising the `Invalid` arm). -/
theorem unpack_total_witness :
    (List.replicate 32 0).length = 32
    ∧ (struct_unpack_request (List.replicate 32 0)).isSome
    ∧ (unpack_request (List.replicate 32 0) = none ∨
        ∃ p, unpack_request (List.replicate 32 0) = some p) :=
  ⟨by decide,
   (unpack_total (List.replicate 32 0) (List.replicate 56 0)).1 (by decide),
   (unpack_total (List.replicate 32 0) (List.replicate 56 0)).2.2.1⟩
